import Mathlib

/-!
Verification development for the pyamlo configuration-loading library.

This file shallowly embeds the parts of the code base that the checked
properties talk about:

  * `src/pyamlo/merge.py`      — `deep_merge`
  * `src/pyamlo/security.py`   — `SecurityPolicy` and its four checks
  * `src/pyamlo/tags.py`       — `construct_env` and the spec-node data model
  * `src/pyamlo/expressions.py`— expression classification and evaluation
  * `src/pyamlo/include.py`    — `load_raw`, `set_base_paths`, `process_includes`
  * `src/pyamlo/resolve.py`    — the `Resolver` traversal, `_get`, `_apply_call`
  * `src/pyamlo/__main__.py`   — `parse_args` and `main`

Python values are modelled by the inductive type `Node`; Python `dict`s
become insertion-ordered association lists (`Fields`) with the update
behaviour of CPython dicts (update-in-place for an existing key, append
for a new key).  Python exceptions become the `Err` sum type threaded
through `Except`.  Machine-independent Python `int` is `Int`; Python
`float` is modelled by `Rat` (exact arithmetic; the claims under test only
exercise results that are exact in IEEE double as well).  Python string
operations (`split`, `replace`, `startswith`, regular-expression scans)
are re-implemented over `List Char` with CPython's documented semantics;
Lean's own `String` library functions are deliberately not used for them.
All recursive functions that walk `Node` trees are fuel-indexed so that
they are structurally recursive and kernel-reducible; the real code has
no cycle detection and can genuinely diverge, which the `Err.fuel`
outcome represents.
-/

/-! ## Python string primitives (over `List Char`) -/

/-- Character list of a string. -/
def chars (s : String) : List Char := s.data

/-- String from a character list. -/
def ofChars (cs : List Char) : String := ⟨cs⟩

/-- Python `a.startswith(b)` on char lists. -/
def isPrefixL : List Char → List Char → Bool
  | [], _ => true
  | _ :: _, [] => false
  | p :: ps, c :: cs => p == c && isPrefixL ps cs

/-- Python `needle in haystack` (substring containment). -/
def containsSub (hay needle : List Char) : Bool :=
  match hay with
  | [] => isPrefixL needle []
  | _ :: rest => isPrefixL needle hay || containsSub rest needle

/-- Python `s.split(sep)` for a one-character separator: splits on every
occurrence, producing empty pieces between adjacent separators. -/
def pySplitCh (sep : Char) : List Char → List (List Char)
  | [] => [[]]
  | c :: cs =>
    if c == sep then
      [] :: pySplitCh sep cs
    else
      match pySplitCh sep cs with
      | [] => [[c]]
      | p :: ps => (c :: p) :: ps

/-- Python `s.split(".")` returning strings. -/
def pySplitDot (s : String) : List String :=
  (pySplitCh ('.') (chars s)).map ofChars

/-- Python `s.replace(old, new)`: replaces every non-overlapping occurrence
left to right.  `old` is assumed non-empty (as in the modelled call sites).
Fuel-indexed on the remaining haystack length. -/
def pyReplaceL (fuel : Nat) (hay old new : List Char) : List Char :=
  match fuel with
  | 0 => hay
  | f + 1 =>
    match hay with
    | [] => []
    | c :: rest =>
      if isPrefixL old hay && !old.isEmpty then
        new ++ pyReplaceL f (hay.drop old.length) old new
      else
        c :: pyReplaceL f rest old new

/-- Python `s.replace(old, new)` on strings. -/
def pyReplace (s old new : String) : String :=
  ofChars (pyReplaceL (chars s).length (chars s) (chars old) (chars new))

/-- Python `str.join` of path segments with `"."` — used for the resolver's
parent-path bookkeeping (`".".join(parts[:i+1])`). -/
def joinDots : List String → String
  | [] => ""
  | [s] => s
  | s :: rest => s ++ "." ++ joinDots rest

/-- Decimal representation of an integer, as Python `str(int)` produces. -/
def pyIntRepr (n : Int) : String :=
  if n < 0 then "-" ++ Nat.repr (-n).toNat else Nat.repr n.toNat

/-! ## The document / value data model

One constructor per kind of runtime value the code manipulates: YAML
scalars, sequences and mappings, the spec nodes from `tags.py`, plus the
Python objects that object construction produces in the claims under test
(callables, `pathlib.Path` instances, `collections.Counter` instances). -/

/-- The concrete callables exercised by the claims (resolved by
`_import_attr` from their dotted paths). -/
inductive PyFun where
  | counter   -- collections.Counter
  | pathCtor  -- pathlib.Path
  deriving DecidableEq, Repr

mutual
/-- A Python runtime value / parsed document node. -/
inductive Node where
  | pnone
  | pbool (b : Bool)
  | pint (n : Int)
  | pfloat (q : Rat)
  | pstr (s : String)
  | plist (xs : List Node)
  | pdict (es : List (String × Node))
  | extendSpec (items : List Node)
  | patchSpec (mapping : List (String × Node))
  | callSpec (path : String) (args : List Node) (kwargs : List (String × Node))
      (is_interpolated : Bool)
  | importSpec (path : String)
  | includeSpec (path : String) (basePath : Option String)
  | includeFromSpec (path : String) (basePath : Option String)
  | pyfun (f : PyFun)
  | pathV (s : String)
  | counterV (counts : List (Node × Int))
end

/-- Ordered string-keyed mapping, the model of a CPython `dict`. -/
abbrev Fields := List (String × Node)

/-- Python `d.get(k)` / `k in d`: first (and only, for real dicts)
occurrence wins. -/
def lookupF (es : Fields) (k : String) : Option Node :=
  match es with
  | [] => none
  | (k', v) :: rest => if k' = k then some v else lookupF rest k

/-- Python `d[k] = v`: update in place if the key exists, else append. -/
def updateF (es : Fields) (k : String) (v : Node) : Fields :=
  match es with
  | [] => [(k, v)]
  | (k', v') :: rest => if k' = k then (k', v) :: rest else (k', v') :: updateF rest k v

/-- Python `d.update(other)`: apply `updateF` for each entry in order. -/
def updateAllF (es : Fields) (other : Fields) : Fields :=
  other.foldl (fun acc kv => updateF acc kv.1 kv.2) es

/-- The keys of a mapping, in order. -/
def keysOf (es : Fields) : List String := es.map Prod.fst

/-! ## Errors -/

/-- The Python exceptions the embedded code can raise, with the data the
claims inspect (variable names, expression texts, categories). -/
inductive Err where
  | fuel
  | unknownVar (name : String)                 -- ResolutionError "Unknown variable '...'"
  | failedResolve (part : String) (path : String)
      -- ResolutionError "Failed to resolve '<part>' in '<path>'"
  | includeKeyMissing (incPath : String) (key : String)
      -- ResolutionError "Include '...' did not resolve to a valid key '...'"
  | divisionByZero (expr : String)             -- ExpressionError "Division by zero in expression '...'"
  | invalidExpr (expr : String)                -- ExpressionError "Invalid expression '...'"
  | nonNumeric (varName : String)
      -- ExpressionError "Cannot use non-numeric value '...' in math expression"
  | permission (category : String) (value : String)  -- PermissionError
  | includeNotFound (path : String)            -- IncludeError "Include file not found"
  | invalidIncludeEntry                        -- IncludeError "Invalid include entry"
  | cannotPatch (key : String)                 -- MergeError "Cannot patch non-dict at '...'"
  | cannotExtend (key : String)                -- MergeError "Cannot extend non-list at '...'"
  | typeError (msg : String)                   -- TypeError
  | attributeError (msg : String)              -- AttributeError
  | importError (path : String)                -- ImportError / missing symbol
  | envNotSet (name : String)                  -- ResolutionError "Environment variable '...' not set"
  | tagError (msg : String)                    -- TagError
  | valueError (msg : String)                  -- ValueError
  deriving DecidableEq, Repr

/-! ## SecurityPolicy (`src/pyamlo/security.py`) -/

/-- The four gate configurations plus the mode flag.  The constructor-side
type validation of the Python `__init__` is enforced by Lean's types;
`None` defaults are applied here exactly as in `__init__`: the pattern
sets default to empty, and `allow_expressions` defaults to `False` in
restrictive mode and `True` in permissive mode. -/
structure SecurityPolicy where
  restrictive : Bool
  allowed_env_vars : List String
  allowed_imports : List String
  allowed_include_paths : List String
  allow_expressions : Bool
  deriving Repr

/-- `SecurityPolicy(restrictive=r)` with every set argument absent. -/
def SecurityPolicy.default (r : Bool) : SecurityPolicy :=
  { restrictive := r
    allowed_env_vars := []
    allowed_imports := []
    allowed_include_paths := []
    allow_expressions := !r }

/-- Scan for the closing `]` of an `fnmatch` character class, accumulating
the class items; `none` when the class is unterminated. -/
def classScan : List Char → List Char → Option (List Char × List Char)
  | acc, ']' :: rest => some (acc.reverse, rest)
  | acc, c :: rest => classScan (c :: acc) rest
  | _, [] => none

/-- Parse one `[...]` character class of an `fnmatch` pattern: returns
(negated?, class items, rest after the closing bracket).  `!` first
negates; a `]` immediately after `[` or `[!` is a literal member; an
unterminated class makes the `[` literal (signalled by `none`). -/
def parseClass (ps : List Char) : Option (Bool × List Char × List Char) :=
  let (neg, ps1) :=
    match ps with
    | '!' :: rest => (true, rest)
    | _ => (false, ps)
  let scanned :=
    match ps1 with
    | ']' :: rest => classScan [']'] rest
    | other => classScan [] other
  match scanned with
  | none => none
  | some (items, rest) => some (neg, items, rest)

/-- Membership of a char in a class item list, honouring `a-z` ranges.
(`classScan` only ever leaves a `]` at the head of the item list, so a
range never ends in `]`.) -/
def classHas : List Char → Char → Bool
  | lo :: '-' :: hi :: rest, c => (lo ≤ c && c ≤ hi) || classHas rest c
  | i :: rest, c => i == c || classHas rest c
  | [], _ => false

/-- `fnmatch.fnmatch(s, p)`: glob matching with `*`, `?` and `[...]`.
Fuel-indexed (every recursive call shrinks pattern or subject). -/
def globMatch (fuel : Nat) (p s : List Char) : Bool :=
  match fuel with
  | 0 => false
  | f + 1 =>
    match p with
    | [] => s.isEmpty
    | '*' :: ps =>
      globMatch f ps s ||
        (match s with
         | [] => false
         | _ :: s' => globMatch f p s')
    | '?' :: ps =>
      (match s with
       | [] => false
       | _ :: s' => globMatch f ps s')
    | '[' :: ps =>
      (match parseClass ps with
       | none =>
         (match s with
          | '[' :: s' => globMatch f ps s'
          | _ => false)
       | some (neg, items, rest) =>
         (match s with
          | [] => false
          | c :: s' => (classHas items c != neg) && globMatch f rest s'))
    | pc :: ps =>
      (match s with
       | c :: s' => pc == c && globMatch f ps s'
       | [] => false)

/-- `fnmatch.fnmatch` on strings. -/
def fnmatchB (s p : String) : Bool :=
  globMatch ((chars p).length + (chars s).length + 1) (chars p) (chars s)

/-- `SecurityPolicy._matches_patterns`. -/
def matches_patterns (check : String) (patterns : List String) : Bool :=
  patterns.any (fun pat => fnmatchB check pat)

/-- `SecurityPolicy.check_env_var`.  Note: this check uses plain set
membership on the name, not pattern matching, in both modes. -/
def check_env_var (p : SecurityPolicy) (name : String) : Except Err Unit :=
  if p.restrictive then
    if name ∈ p.allowed_env_vars then .ok () else .error (.permission ("env") name)
  else
    if !p.allowed_env_vars.isEmpty && name ∉ p.allowed_env_vars then
      .error (.permission ("env") name)
    else .ok ()

/-- `SecurityPolicy.check_import`. -/
def check_import (p : SecurityPolicy) (module : String) : Except Err Unit :=
  if p.restrictive then
    if matches_patterns module p.allowed_imports then .ok ()
    else .error (.permission ("import") module)
  else
    if !p.allowed_imports.isEmpty && matches_patterns module p.allowed_imports then
      .error (.permission ("import") module)
    else .ok ()

/-- `SecurityPolicy.check_include`. -/
def check_include (p : SecurityPolicy) (path : String) : Except Err Unit :=
  if p.restrictive then
    if matches_patterns path p.allowed_include_paths then .ok ()
    else .error (.permission ("include") path)
  else
    if !p.allowed_include_paths.isEmpty && !matches_patterns path p.allowed_include_paths then
      .error (.permission ("include") path)
    else .ok ()

/-- `SecurityPolicy.check_expression`. -/
def check_expression (p : SecurityPolicy) (_expr : String) : Except Err Unit :=
  if p.allow_expressions then .ok () else .error (.permission ("expression") "")

/-! ## construct_env (`src/pyamlo/tags.py`, lines 81-103)

The tag constructor for `!env`.  The YAML node is either a scalar
(variable name) or a mapping with `var`/`name` and `default` keys; the
process environment is a string-to-string map.  The function reads the
environment directly — it takes no security policy and performs no
`check_env_var` call (the point of claim C5). -/

/-- Shape of a YAML `!env` node as the constructor sees it. -/
inductive EnvNode where
  | scalar (name : String)
  | mapping (fields : List (String × Option String))
  | other
  deriving Repr

/-- Python `os.environ.get(name)` over an explicit environment table. -/
def osEnvironGet (environ : List (String × String)) (name : String) : Option String :=
  match environ with
  | [] => none
  | (k, v) :: rest => if k = name then some v else osEnvironGet rest name

/-- Lookup in the constructed mapping of an `!env` mapping node; Python's
`mapping.get("var") or mapping.get("name")` with `None` falsy. -/
def envMapGet (fields : List (String × Option String)) (k : String) : Option String :=
  match fields with
  | [] => none
  | (k', v) :: rest => if k' = k then (match v with | some s => some s | none => none)
                       else envMapGet rest k

/-- `construct_env(loader, node)`. -/
def construct_env (environ : List (String × String)) (node : EnvNode) : Except Err Node :=
  match node with
  | .scalar var =>
    match osEnvironGet environ var with
    | none => .error (.envNotSet var)
    | some val => .ok (.pstr val)
  | .mapping fields =>
    let var :=
      match envMapGet fields ("var") with
      | some v => some v
      | none => envMapGet fields ("name")
    let dflt := envMapGet fields ("default")
    match var with
    | none =>
      -- os.environ.get(None, default) returns the default (or raises on a
      -- genuinely absent key type); the claims only touch named vars.
      (match dflt with
       | some d => .ok (.pstr d)
       | none => .error (.envNotSet ("None")))
    | some v =>
      match osEnvironGet environ v with
      | some val => .ok (.pstr val)
      | none =>
        match dflt with
        | some d => .ok (.pstr d)
        | none => .error (.envNotSet v)
  | .other => .error (.tagError ("!env must be used with a scalar or mapping node"))

/-! ## deep_merge (`src/pyamlo/merge.py`, lines 19-40)

Fuel-indexed so the definition is structural; every recursive call burns
one unit.  The case analysis is in the exact priority order of the Python
`match` statement. -/

/-- One arm of `deep_merge`'s `match existing, val` statement, for the
entry `key ↦ val` of the overlay; `dm` is the recursive merge used by
the CallSpec-kwargs and mapping-mapping cases. -/
def merge_entry (dm : Fields → Fields → Except Err Fields)
    (a : Fields) (key : String) (val : Node) : Except Err Fields :=
  match lookupF a key, val with
  | some (.callSpec p ar _kw ii), .patchSpec m =>
    .ok (updateF a key (.callSpec p ar m ii))
  | some (.callSpec p ar kw ii), .pdict mapping => do
    let kw' ← dm kw mapping
    .ok (updateF a key (.callSpec p ar kw' ii))
  | some (.plist base_list), .extendSpec more =>
    .ok (updateF a key (.plist (base_list ++ more)))
  | some (.pdict _), .patchSpec m =>
    .ok (updateF a key (.pdict m))
  | _, .patchSpec _ => .error (.cannotPatch key)
  | _, .extendSpec _ => .error (.cannotExtend key)
  | some (.pdict base_map), .pdict other_map => do
    let merged ← dm base_map other_map
    .ok (updateF a key (.pdict merged))
  | _, _ => .ok (updateF a key val)

/-- `deep_merge(a, b)`: `a` updated with `b`'s content. -/
def deep_merge (fuel : Nat) (a b : Fields) : Except Err Fields :=
  match fuel with
  | 0 => .error .fuel
  | f + 1 =>
    match b with
    | [] => .ok a
    | (key, val) :: rest => do
      let a' ← merge_entry (deep_merge f) a key val
      deep_merge f a' rest

/-! ## Expression classification and evaluation (`src/pyamlo/expressions.py`)

`is_expression`, `_is_math_operation` and `_extract_variables` are direct
models of the regex/substring tests in the source.  The call to the host
language's `eval` inside `ExpressionEvaluator.evaluate` is modelled by a
tokenizer + precedence-climbing evaluator (`evalPyExpr`) implementing
CPython's documented semantics for the arithmetic / bitwise / comparison
fragment of its expression grammar over ints, floats, bools, strings and
lists.  Constructs outside that fragment (ternaries, boolean keywords,
chained comparisons, attribute access) evaluate to the generic error,
which `evaluate` maps to the same `ExpressionError` CPython failures map
to; no claim under test exercises them. -/

/-- A character that counts for a regex `\b` word boundary. -/
def isWordChar (c : Char) : Bool := c.isAlpha || c.isDigit || c == '_'

/-- Does `s` contain keyword `kw` as a whole word (`\b kw \b`)?
`prev` is the character immediately before the current position. -/
def hasWordFrom (kw : List Char) (prev : Option Char) (s : List Char) : Bool :=
  match s with
  | [] => false
  | c :: rest =>
    ((match prev with | none => true | some p => !isWordChar p) &&
      isPrefixL kw s &&
      (match s.drop kw.length with
       | [] => true
       | a :: _ => !isWordChar a)) ||
    hasWordFrom kw (some c) rest

/-- Whole-word containment on strings. -/
def hasWord (s kw : String) : Bool := hasWordFrom (chars kw) none (chars s)

/-- The single characters that witness membership of some element of
`MATH_OPERATORS` as a substring (multi-character operators `//`, `**`,
`<<`, `>>` are subsumed by `/`, `*` — except the shift operators, whose
single characters are *not* in the math set and need substring checks). -/
def mathOpChars : List Char := ['+', '-', '*', '/', '%', '(', ')', '&', '|', '^', '~']

/-- `_has_operators(expression, MATH_OPERATORS)`. -/
def has_math_operators (s : String) : Bool :=
  (chars s).any (fun c => mathOpChars.contains c) ||
    containsSub (chars s) (chars ("<<")) || containsSub (chars s) (chars (">>"))

/-- `_has_operators(expression, COMPARISON_OPERATORS)`: `<` and `>` are
comparison members themselves; `==`, `!=` need substring checks. -/
def has_comparison_operators (s : String) : Bool :=
  (chars s).any (fun c => c == '<' || c == '>') ||
    containsSub (chars s) (chars ("==")) || containsSub (chars s) (chars ("!="))

/-- `_has_logical_operators`: whole-word search for the control keywords. -/
def has_logical_operators (s : String) : Bool :=
  hasWord s ("and") || hasWord s ("or") || hasWord s ("not") ||
    hasWord s ("if") || hasWord s ("else")

/-- `is_expression`. -/
def is_expression (s : String) : Bool :=
  has_math_operators s || has_comparison_operators s || has_logical_operators s

/-- `_is_math_operation`. -/
def is_math_operation (s : String) : Bool :=
  has_math_operators s && !has_comparison_operators s && !has_logical_operators s

/-- Strip quoted string literals (regex `"[^"]*"|'[^']*'` replaced by the
empty string, scanning left to right). -/
def stripQuoted (fuel : Nat) (s : List Char) : List Char :=
  match fuel with
  | 0 => s
  | f + 1 =>
    match s with
    | [] => []
    | c :: rest =>
      if c == '"' || c == '\'' then
        match (rest.takeWhile (fun d => d ≠ c), rest.dropWhile (fun d => d ≠ c)) with
        | (_, _ :: after) => stripQuoted f after
        | (_, []) => c :: stripQuoted f rest
      else c :: stripQuoted f rest

/-- A character of the variable-token class `[a-zA-Z0-9_.]`. -/
def isVarTokChar (c : Char) : Bool := isWordChar c || c == '.'

/-- Drop the trailing dots a greedy `[a-zA-Z0-9_.]*` match gives up to
satisfy the closing `\b`. -/
def dropTrailDots (t : List Char) : List Char :=
  (t.reverse.dropWhile (fun c => c == '.')).reverse

/-- Scan for all matches of `\b[a-zA-Z_][a-zA-Z0-9_.]*\b` (the variable
pattern of `_extract_variables`); `prevWord` tracks whether the previous
character was a word character (for the opening `\b`). -/
def varScan (fuel : Nat) (prevWord : Bool) (s : List Char) : List (List Char) :=
  match fuel with
  | 0 => []
  | f + 1 =>
    match s with
    | [] => []
    | c :: rest =>
      if (c.isAlpha || c == '_') && !prevWord then
        let run := (c :: rest).takeWhile isVarTokChar
        let tok := dropTrailDots run
        tok :: varScan f true ((c :: rest).drop tok.length)
      else
        varScan f (isWordChar c) rest

/-- The Python keyword list (`keyword.kwlist`), used to exclude reserved
words from variable extraction. -/
def pythonKeywords : List String :=
  [("False"), ("None"), ("True"), ("and"), ("as"), ("assert"), ("async"),
   ("await"), ("break"), ("class"), ("continue"), ("def"), ("del"),
   ("elif"), ("else"), ("except"), ("finally"), ("for"), ("from"),
   ("global"), ("if"), ("import"), ("in"), ("is"), ("lambda"),
   ("nonlocal"), ("not"), ("or"), ("pass"), ("raise"), ("return"),
   ("try"), ("while"), ("with"), ("yield")]

/-- `_extract_variables`. -/
def extract_variables (expression : String) : List String :=
  let no_strings := stripQuoted (chars expression).length (chars expression)
  let words := (varScan no_strings.length false no_strings).map ofChars
  words.filter (fun w => w ∉ pythonKeywords)

/-- `_should_validate_as_numeric`: no other extracted variable extends
`var_name` with a dot. -/
def should_validate_as_numeric (var_name : String) (variables_found : List String) : Bool :=
  !(variables_found.any (fun v => isPrefixL (chars (var_name ++ ".")) (chars v)))

/-- Python `"." in var_name`. -/
def hasDot (s : String) : Bool := (chars s).contains ('.')

/-- `_get_safe`: rewrite a dotted variable to an underscore name inside
the expression (a blind global string replace, as in the source). -/
def get_safe (expression var_name : String) : String × String :=
  let safe_name := if hasDot var_name then pyReplace var_name (".") ("_") else var_name
  let expression' := if safe_name ≠ var_name then pyReplace expression var_name safe_name
                     else expression
  (safe_name, expression')

/-- Is a value numeric in the sense of `isinstance(value, (int, float, bool))`? -/
def isNumericNode : Node → Bool
  | .pint _ => true
  | .pfloat _ => true
  | .pbool _ => true
  | _ => false

/-- `_validate_variable`: raise for a non-numeric value that is either
dotted or not the prefix of a longer dotted variable. -/
def validate_variable (var_name : String) (value : Node)
    (variables_found : List String) : Except Err Unit :=
  let validate_numeric := should_validate_as_numeric var_name variables_found
  if (hasDot var_name || validate_numeric) && !isNumericNode value then
    .error (.nonNumeric var_name)
  else .ok ()

/-! ### The model of host-language `eval` on the arithmetic fragment -/

/-- Evaluation outcomes `eval` can signal that `evaluate` distinguishes. -/
inductive EvalErr where
  | zeroDiv
  | bad
  deriving DecidableEq, Repr

/-- Tokens of the Python expression fragment. -/
inductive Tok where
  | intLit (n : Nat)
  | name (s : String)
  | op (s : String)
  | lparen
  | rparen
  deriving DecidableEq, Repr

/-- Tokenizer; `none` on characters outside the fragment. -/
def pyTokenize (fuel : Nat) (s : List Char) : Option (List Tok) :=
  match fuel with
  | 0 => none
  | f + 1 =>
    match s with
    | [] => some []
    | ' ' :: rest => pyTokenize f rest
    | '(' :: rest => (pyTokenize f rest).map (fun ts => .lparen :: ts)
    | ')' :: rest => (pyTokenize f rest).map (fun ts => .rparen :: ts)
    | '*' :: '*' :: rest => (pyTokenize f rest).map (fun ts => .op ("**") :: ts)
    | '/' :: '/' :: rest => (pyTokenize f rest).map (fun ts => .op ("//") :: ts)
    | '<' :: '<' :: rest => (pyTokenize f rest).map (fun ts => .op ("<<") :: ts)
    | '>' :: '>' :: rest => (pyTokenize f rest).map (fun ts => .op (">>") :: ts)
    | '=' :: '=' :: rest => (pyTokenize f rest).map (fun ts => .op ("==") :: ts)
    | '!' :: '=' :: rest => (pyTokenize f rest).map (fun ts => .op ("!=") :: ts)
    | '<' :: '=' :: rest => (pyTokenize f rest).map (fun ts => .op ("<=") :: ts)
    | '>' :: '=' :: rest => (pyTokenize f rest).map (fun ts => .op (">=") :: ts)
    | c :: rest =>
      if c.isDigit then
        let digits := (c :: rest).takeWhile Char.isDigit
        let n := digits.foldl (fun acc d => acc * 10 + (d.toNat - 48)) 0
        (pyTokenize f ((c :: rest).drop digits.length)).map (fun ts => .intLit n :: ts)
      else if c.isAlpha || c == '_' then
        let run := (c :: rest).takeWhile isWordChar
        (pyTokenize f ((c :: rest).drop run.length)).map
          (fun ts => .name (ofChars run) :: ts)
      else if ['+', '-', '*', '/', '%', '~', '&', '|', '^', '<', '>'].contains c then
        (pyTokenize f rest).map (fun ts => .op (ofChars [c]) :: ts)
      else none

/-- Two's-complement AND on unbounded integers (CPython `int.__and__`). -/
def intAnd : Int → Int → Int
  | .ofNat m, .ofNat n => .ofNat (m &&& n)
  | .negSucc m, .ofNat n => .ofNat (Nat.ldiff n m)
  | .ofNat m, .negSucc n => .ofNat (Nat.ldiff m n)
  | .negSucc m, .negSucc n => .negSucc (m ||| n)

/-- Two's-complement OR. -/
def intOr : Int → Int → Int
  | .ofNat m, .ofNat n => .ofNat (m ||| n)
  | .negSucc m, .ofNat n => .negSucc (Nat.ldiff m n)
  | .ofNat m, .negSucc n => .negSucc (Nat.ldiff n m)
  | .negSucc m, .negSucc n => .negSucc (m &&& n)

/-- Two's-complement XOR. -/
def intXor : Int → Int → Int
  | .ofNat m, .ofNat n => .ofNat (m ^^^ n)
  | .negSucc m, .ofNat n => .negSucc (m ^^^ n)
  | .ofNat m, .negSucc n => .negSucc (m ^^^ n)
  | .negSucc m, .negSucc n => .ofNat (m ^^^ n)

/-- View a value as a Python `int` operand (bools coerce). -/
def asIntNode : Node → Option Int
  | .pint n => some n
  | .pbool b => some (if b then 1 else 0)
  | _ => none

/-- View a value as a real number (Python numeric tower for arithmetic). -/
def asRatNode : Node → Option Rat
  | .pint n => some (n : Rat)
  | .pbool b => some (if b then 1 else 0)
  | .pfloat q => some q
  | _ => none

/-- Is the value a `float`? (controls int-vs-float result types). -/
def isFloatNode : Node → Bool
  | .pfloat _ => true
  | _ => false

/-- Apply a binary operator with CPython semantics on the supported
operand kinds; `.bad` stands for the `TypeError`s/`ValueError`s CPython
raises outside them. -/
def applyBin (o : String) (a b : Node) : Except EvalErr Node :=
  if o = "+" then
    match a, b with
    | .pstr x, .pstr y => .ok (.pstr (x ++ y))
    | .plist x, .plist y => .ok (.plist (x ++ y))
    | _, _ =>
      match asIntNode a, asIntNode b with
      | some x, some y => .ok (.pint (x + y))
      | _, _ =>
        match asRatNode a, asRatNode b with
        | some x, some y => .ok (.pfloat (x + y))
        | _, _ => .error .bad
  else if o = "-" then
    match asIntNode a, asIntNode b with
    | some x, some y => .ok (.pint (x - y))
    | _, _ =>
      match asRatNode a, asRatNode b with
      | some x, some y => .ok (.pfloat (x - y))
      | _, _ => .error .bad
  else if o = "*" then
    match asIntNode a, asIntNode b with
    | some x, some y => .ok (.pint (x * y))
    | _, _ =>
      match asRatNode a, asRatNode b with
      | some x, some y => .ok (.pfloat (x * y))
      | _, _ => .error .bad
  else if o = "/" then
    match asRatNode a, asRatNode b with
    | some x, some y => if y = 0 then .error .zeroDiv else .ok (.pfloat (x / y))
    | _, _ => .error .bad
  else if o = "//" then
    match asIntNode a, asIntNode b with
    | some x, some y => if y = 0 then .error .zeroDiv else .ok (.pint (Int.fdiv x y))
    | _, _ =>
      match asRatNode a, asRatNode b with
      | some x, some y =>
        if y = 0 then .error .zeroDiv else .ok (.pfloat ((⌊x / y⌋ : Int) : Rat))
      | _, _ => .error .bad
  else if o = "%" then
    match asIntNode a, asIntNode b with
    | some x, some y => if y = 0 then .error .zeroDiv else .ok (.pint (Int.fmod x y))
    | _, _ =>
      match asRatNode a, asRatNode b with
      | some x, some y =>
        if y = 0 then .error .zeroDiv else .ok (.pfloat (x - y * ((⌊x / y⌋ : Int) : Rat)))
      | _, _ => .error .bad
  else if o = "**" then
    match asIntNode a, asIntNode b with
    | some x, some y =>
      if 0 ≤ y then .ok (.pint (x ^ y.toNat))
      else if x = 0 then .error .zeroDiv
      else .ok (.pfloat (1 / ((x : Rat) ^ (-y).toNat)))
    | _, _ =>
      match asRatNode a, asIntNode b with
      | some x, some y =>
        if 0 ≤ y then .ok (.pfloat (x ^ y.toNat))
        else if x = 0 then .error .zeroDiv
        else .ok (.pfloat (1 / (x ^ (-y).toNat)))
      | _, _ => .error .bad
  else if o = "&" then
    match asIntNode a, asIntNode b with
    | some x, some y => .ok (.pint (intAnd x y))
    | _, _ => .error .bad
  else if o = "|" then
    match asIntNode a, asIntNode b with
    | some x, some y => .ok (.pint (intOr x y))
    | _, _ => .error .bad
  else if o = "^" then
    match asIntNode a, asIntNode b with
    | some x, some y => .ok (.pint (intXor x y))
    | _, _ => .error .bad
  else if o = "<<" then
    match asIntNode a, asIntNode b with
    | some x, some y =>
      if y < 0 then .error .bad else .ok (.pint (x * (2 : Int) ^ y.toNat))
    | _, _ => .error .bad
  else if o = ">>" then
    match asIntNode a, asIntNode b with
    | some x, some y =>
      if y < 0 then .error .bad else .ok (.pint (Int.fdiv x ((2 : Int) ^ y.toNat)))
    | _, _ => .error .bad
  else if o = "==" || o = "!=" then
    let eqv : Bool :=
      match asRatNode a, asRatNode b with
      | some x, some y => decide (x = y)
      | _, _ =>
        match a, b with
        | .pstr x, .pstr y => decide (x = y)
        | _, _ => false
    .ok (.pbool (if o = "==" then eqv else !eqv))
  else if o = "<" || o = "<=" || o = ">" || o = ">=" then
    match asRatNode a, asRatNode b with
    | some x, some y =>
      .ok (.pbool (if o = "<" then decide (x < y)
                   else if o = "<=" then decide (x ≤ y)
                   else if o = ">" then decide (y < x)
                   else decide (y ≤ x)))
    | _, _ =>
      match a, b with
      | .pstr x, .pstr y =>
        .ok (.pbool (if o = "<" then decide (x < y)
                     else if o = "<=" then decide (x < y) || decide (x = y)
                     else if o = ">" then decide (y < x)
                     else decide (y < x) || decide (x = y)))
      | _, _ => .error .bad
  else .error .bad

/-- Operators of each precedence level, loosest (0) to tightest. -/
def levelOps (lvl : Nat) : List String :=
  match lvl with
  | 0 => [("=="), ("!="), ("<"), ("<="), (">"), (">=")]
  | 1 => [("|")]
  | 2 => [("^")]
  | 3 => [("&")]
  | 4 => [("<<"), (">>")]
  | 5 => [("+"), ("-")]
  | 6 => [("*"), ("/"), ("//"), ("%")]
  | _ => []

/-- Precedence-climbing parse-and-evaluate for the fragment.  `lvl` 0-6
are the left-associative binary levels; 7 is unary, 8 is power, 9 is
atoms.  `acc = some v` means the binary loop at `lvl` already holds the
value `v`.  Every recursive call burns fuel, so the definition is
structural and kernel-reducible. -/
def pev (fuel : Nat) (ns : Fields) (lvl : Nat) (acc : Option Node) (ts : List Tok) :
    Except EvalErr (Node × List Tok) :=
  match fuel with
  | 0 => .error .bad
  | f + 1 =>
    match acc with
    | some v =>
      match ts with
      | .op o :: rest =>
        if (levelOps lvl).contains o then do
          let (w, rest') ← pev f ns (lvl + 1) none rest
          let v' ← applyBin o v w
          pev f ns lvl (some v') rest'
        else .ok (v, ts)
      | _ => .ok (v, ts)
    | none =>
      if lvl ≤ 6 then do
        let (v, rest) ← pev f ns (lvl + 1) none ts
        pev f ns lvl (some v) rest
      else if lvl = 7 then
        match ts with
        | .op o :: rest =>
          if o = "~" || o = "-" || o = "+" then do
            let (v, rest') ← pev f ns 7 none rest
            if o = "~" then
              match asIntNode v with
              | some n => .ok (.pint (-n - 1), rest')
              | none => .error .bad
            else if o = "-" then
              match v with
              | .pint n => .ok (.pint (-n), rest')
              | .pbool b => .ok (.pint (-(if b then (1 : Int) else 0)), rest')
              | .pfloat q => .ok (.pfloat (-q), rest')
              | _ => .error .bad
            else
              match v with
              | .pint n => .ok (.pint n, rest')
              | .pbool b => .ok (.pint (if b then 1 else 0), rest')
              | .pfloat q => .ok (.pfloat q, rest')
              | _ => .error .bad
          else .error .bad
        | _ => pev f ns 8 none ts
      else if lvl = 8 then do
        let (v, rest) ← pev f ns 9 none ts
        match rest with
        | .op o :: rest' =>
          if o = "**" then do
            let (w, rest'') ← pev f ns 7 none rest'
            let v' ← applyBin ("**") v w
            .ok (v', rest'')
          else .ok (v, rest)
        | _ => .ok (v, rest)
      else
        match ts with
        | .intLit n :: rest => .ok (.pint (n : Int), rest)
        | .name s :: rest =>
          (match lookupF ns s with
           | some v => .ok (v, rest)
           | none => .error .bad)   -- NameError: the namespace exposes no builtins
        | .lparen :: rest => do
          let (v, rest') ← pev f ns 0 none rest
          (match rest' with
           | .rparen :: rest'' => .ok (v, rest'')
           | _ => .error .bad)
        | _ => .error .bad

/-- The model of `eval(safe_expression, {"__builtins__": {}}, namespace)`. -/
def evalPyExpr (ns : Fields) (s : String) : Except EvalErr Node :=
  match pyTokenize ((chars s).length + 1) (chars s) with
  | none => .error .bad
  | some ts =>
    match pev (8 * (ts.length + 2)) ns 0 none ts with
    | .ok (v, []) => .ok v
    | .ok (_, _ :: _) => .error .bad
    | .error e => .error e

/-- `ExpressionEvaluator._get_safe_expr_with_ns`: resolve and (for math
expressions) validate every extracted variable, rewriting dotted names. -/
def get_safe_expr_with_ns (getv : String → Except Err Node) (expression : String) :
    Except Err (String × Fields) := do
  let variables_found := extract_variables expression
  let is_math := is_math_operation expression
  variables_found.foldlM
    (fun (acc : String × Fields) var_name => do
      let value ← getv var_name
      if is_math then do
        _ ← validate_variable var_name value variables_found
        let p := get_safe acc.1 var_name
        .ok (p.2, updateF acc.2 p.1 value)
      else
        let p := get_safe acc.1 var_name
        .ok (p.2, updateF acc.2 p.1 value))
    (expression, ([] : Fields))

/-- `ExpressionEvaluator.evaluate`. -/
def evaluate (getv : String → Except Err Node) (expression : String) : Except Err Node := do
  let (safe_expression, namespace_) ← get_safe_expr_with_ns getv expression
  match evalPyExpr namespace_ safe_expression with
  | .ok v => .ok v
  | .error .zeroDiv => .error (.divisionByZero expression)
  | .error .bad => .error (.invalidExpr expression)

/-! ## Resolver environment and lookup (`src/pyamlo/resolve.py`)

`REnv` packages the ambient world the resolver touches: the file system
(`fs`, mapping a path to the already-parsed document `yaml.load` would
return), the import machinery (`imports`, a symbol table standing for
`_import_attr`'s module import + attribute lookup), the security policy,
and an attribute oracle `attrs` standing for Python `getattr` on
non-mapping objects (the claims never exercise attribute access, and
witnesses instantiate it with the everywhere-failing oracle). -/

structure REnv where
  fs : List (String × Fields)
  imports : Fields
  policy : SecurityPolicy
  attrs : Node → String → Option Node

/-- Attribute oracle for objects without modelled attributes: every
`getattr` raises `AttributeError`. -/
def noAttrs : Node → String → Option Node := fun _ _ => none

/-- The dotted-segment walk of `Resolver._get` after the first segment:
mapping access for dicts, `getattr` otherwise. -/
def rgetWalk (attrs : Node → String → Option Node) (obj : Node)
    (parts : List String) (path : String) : Except Err Node :=
  match parts with
  | [] => .ok obj
  | part :: rest =>
    match obj with
    | .pdict es =>
      (match lookupF es part with
       | some v => rgetWalk attrs v rest path
       | none => .error (.failedResolve part path))
    | other =>
      (match attrs other part with
       | some v => rgetWalk attrs v rest path
       | none => .error (.failedResolve part path))

/-- `Resolver._get`: exact-path hit in the context first, then a walk
from the first segment (where a stored Python `None` is indistinguishable
from an absent key, per `self.ctx.get(parts[0]) is None`). -/
def rget (attrs : Node → String → Option Node) (ctx : Fields) (path : String) :
    Except Err Node :=
  match lookupF ctx path with
  | some v => .ok v
  | none =>
    match pySplitDot path with
    | [] => .error (.unknownVar "")
    | p0 :: rest =>
      match lookupF ctx p0 with
      | none => .error (.unknownVar p0)
      | some .pnone => .error (.unknownVar p0)
      | some obj => rgetWalk attrs obj rest path

/-- Python `str(value)` for the value kinds interpolation can stringify.
Containers fall back to a placeholder; no claim stringifies one. -/
def pyStr : Node → String
  | .pnone => "None"
  | .pbool b => if b then "True" else "False"
  | .pint n => pyIntRepr n
  | .pfloat q => if q.den = 1 then pyIntRepr q.num ++ ".0"
                 else pyIntRepr q.num ++ "/" ++ Nat.repr q.den
  | .pstr s => s
  | .pathV s => s
  | _ => "<object>"

/-- Read one `${...}` token: the chars up to the first `}` (which must
exist and be non-empty, per the regex `\$\{([^}]+)\}`). -/
def takeVarTok (cs : List Char) : Option (List Char × List Char) :=
  let content := cs.takeWhile (fun c => c ≠ '}')
  match cs.drop content.length with
  | '}' :: after => if content.isEmpty then none else some (content, after)
  | _ => none

/-- `VAR_RE.fullmatch(node)`: the entire string is a single `${...}`. -/
def fullmatchVar (s : String) : Option String :=
  match chars s with
  | '$' :: '{' :: rest =>
    (match takeVarTok rest with
     | some (content, []) => some (ofChars content)
     | _ => none)
  | _ => none

/-- `VAR_RE.sub(repl, s)`: replace every `${...}` token using `repl` on
the token content, keeping everything else verbatim. -/
def subTokens (repl : String → Except Err String) (fuel : Nat) (s : List Char) :
    Except Err (List Char) :=
  match fuel with
  | 0 => .ok s
  | fl + 1 =>
    match s with
    | '$' :: '{' :: rest =>
      (match takeVarTok rest with
       | some (content, after) => do
          let rep ← repl (ofChars content)
          let tail ← subTokens repl fl after
          .ok (chars rep ++ tail)
       | none => do
          let tail ← subTokens repl fl ('{' :: rest)
          .ok ('$' :: tail))
    | c :: rest => do
      let tail ← subTokens repl fl rest
      .ok (c :: tail)
    | [] => .ok []

/-! ## Filesystem paths (`os.path` as used by the include machinery) -/

/-- `os.path.isabs`. -/
def isAbs (s : String) : Bool := isPrefixL (chars ("/")) (chars s)

/-- `os.path.dirname` (POSIX). -/
def dirName (s : String) : String :=
  let cs := chars s
  let head := (cs.reverse.dropWhile (fun c => c ≠ '/')).reverse
  if head.isEmpty then ""
  else if head.all (fun c => c == '/') then ofChars head
  else ofChars ((head.reverse.dropWhile (fun c => c == '/')).reverse)

/-- `os.path.join(d, f)` for a relative `f` (the only way it is called). -/
def joinPath (d f : String) : String :=
  if d = "" then f
  else if (chars d).getLast? == some '/' then d ++ f
  else d ++ "/" ++ f

/-! ## Imports and calls -/

/-- `_import_attr(path)`: modelled as lookup in a pre-registered symbol
table (exactly the replacement §9 of the spec prescribes for a
non-reflective host); a miss is the import failure. -/
def import_attr (env : REnv) (path : String) : Except Err Node :=
  match lookupF env.imports path with
  | some v => .ok v
  | none => .error (.importError path)

/-- Python hashability of the modelled values (lists, dicts and the
`UserDict`/`UserList` spec nodes are unhashable). -/
def isHashableNode : Node → Bool
  | .plist _ => false
  | .pdict _ => false
  | .extendSpec _ => false
  | .patchSpec _ => false
  | .counterV _ => false
  | _ => true

/-- Python `==` on the modelled values (numeric kinds compare across
types, `True == 1`); fuel-indexed for nested containers. -/
def nodeEqF (fuel : Nat) (a b : Node) : Bool :=
  match fuel with
  | 0 => false
  | f + 1 =>
    match asRatNode a, asRatNode b with
    | some x, some y => decide (x = y)
    | _, _ =>
      match a, b with
      | .pnone, .pnone => true
      | .pstr x, .pstr y => decide (x = y)
      | .pathV x, .pathV y => decide (x = y)
      | .pyfun x, .pyfun y => decide (x = y)
      | .plist xs, .plist ys =>
        xs.length == ys.length && (List.zip xs ys).all (fun p => nodeEqF f p.1 p.2)
      | _, _ => false

/-- `collections.Counter` counting of an iterable, preserving first-seen
key order as CPython does. -/
def countAdd (counts : List (Node × Int)) (x : Node) : List (Node × Int) :=
  match counts with
  | [] => [(x, 1)]
  | (k, c) :: rest =>
    if nodeEqF 100 k x then (k, c + 1) :: rest else (k, c) :: countAdd rest x

/-- Count a list of values. -/
def countNodes (xs : List Node) : List (Node × Int) := xs.foldl countAdd []

/-- Invocation semantics of the two callables the claims construct. -/
def callFun : PyFun → List Node → Fields → Except Err Node
  | .counter, args, kwargs =>
    let addKw : List (Node × Int) → Except Err (List (Node × Int)) := fun base =>
      kwargs.foldlM (fun acc kv =>
        match kv.2 with
        | .pint n => .ok (acc ++ [(.pstr kv.1, n)])
        | _ => .error (.typeError ("counter values must be ints in this model")))
        base
    (match args with
     | [] => do
       let c ← addKw []
       .ok (.counterV c)
     | [.plist xs] =>
       if xs.all isHashableNode then do
         let c ← addKw (countNodes xs)
         .ok (.counterV c)
       else .error (.typeError ("unhashable type: list"))
     | [.pstr s] => do
       let c ← addKw (countNodes ((chars s).map (fun ch => .pstr (ofChars [ch]))))
       .ok (.counterV c)
     | [_] => .error (.typeError ("object is not iterable"))
     | _ => .error (.typeError ("expected at most 1 arguments")))
  | .pathCtor, args, kwargs =>
    if !kwargs.isEmpty then .error (.typeError ("unexpected keyword argument"))
    else
      let seg : Node → Option String := fun a =>
        match a with
        | .pstr s => some s
        | .pathV s => some s
        | _ => none
      match args.mapM seg with
      | none => .error (.typeError ("argument should be a str"))
      | some [] => .ok (.pathV ("."))
      | some (s0 :: rest) => .ok (.pathV (rest.foldl (fun acc s => joinPath acc s) s0))

/-- Apply a resolved callable value. -/
def callNode (fn : Node) (args : List Node) (kwargs : Fields) : Except Err Node :=
  match fn with
  | .pyfun f => callFun f args kwargs
  | _ => .error (.typeError ("object is not callable"))

/-- `_apply_call(fn, args, kwargs)` (`src/pyamlo/resolve.py`, lines
222-228): on a `TypeError` with more than one positional argument, retry
as `fn([args], **kwargs)` — a single positional argument whose value is
the list containing the original argument list — otherwise re-raise. -/
def apply_call (fn : Node) (args : List Node) (kwargs : Fields) : Except Err Node :=
  match callNode fn args kwargs with
  | .ok v => .ok v
  | .error e =>
    match e with
    | .typeError m =>
      if args.length > 1 then callNode fn [.plist [.plist args]] kwargs
      else .error (.typeError m)
    | other => .error other

/-! ## Interpolated callable resolution (`Resolver._resolve_*`) -/

/-- `Resolver._is_single_variable`. -/
def is_single_variable (p : String) : Bool :=
  isPrefixL (chars ("$")) (chars p) && !hasDot p

/-- `Resolver._is_method_call`. -/
def is_method_call (p : String) : Bool :=
  isPrefixL (chars ("$")) (chars p) && hasDot p &&
    !((chars p).drop 1).contains ('$')

/-- Python `s.split(".", 1)` when a dot is present. -/
def pySplitOnceDot (s : String) : String × String :=
  let cs := chars s
  (ofChars (cs.takeWhile (fun c => c ≠ '.')),
   ofChars ((cs.dropWhile (fun c => c ≠ '.')).drop 1))

/-- `Resolver._resolve_single_variable`. -/
def resolve_single_variable (env : REnv) (ctx : Fields) (p : String) : Except Err Node := do
  let var_value ← rget env.attrs ctx (ofChars ((chars p).drop 1))
  match var_value with
  | .pstr s => do
    _ ← check_import env.policy s
    import_attr env s
  | v => .ok v

/-- `Resolver._resolve_method_call`. -/
def resolve_method_call (env : REnv) (ctx : Fields) (p : String) : Except Err Node := do
  let pr := pySplitOnceDot (ofChars ((chars p).drop 1))
  let obj ← rget env.attrs ctx pr.1
  match env.attrs obj pr.2 with
  | some m => .ok m
  | none => .error (.attributeError pr.2)

/-- Replace every `$identifier` token (`\$[a-zA-Z_][a-zA-Z0-9_]*`) with
the stringified context lookup of the identifier. -/
def subDollarIdents (env : REnv) (ctx : Fields) (fuel : Nat) (s : List Char) :
    Except Err (List Char) :=
  match fuel with
  | 0 => .ok s
  | fl + 1 =>
    match s with
    | '$' :: c :: rest =>
      if c.isAlpha || c == '_' then do
        let run := (c :: rest).takeWhile isWordChar
        let v ← rget env.attrs ctx (ofChars run)
        let tail ← subDollarIdents env ctx fl ((c :: rest).drop run.length)
        .ok (chars (pyStr v) ++ tail)
      else do
        let tail ← subDollarIdents env ctx fl (c :: rest)
        .ok ('$' :: tail)
    | c :: rest => do
      let tail ← subDollarIdents env ctx fl rest
      .ok (c :: tail)
    | [] => .ok []

/-- `Resolver._resolve_variable_interpolation`. -/
def resolve_variable_interpolation (env : REnv) (ctx : Fields) (path_template : String) :
    Except Err Node := do
  let ip ← subDollarIdents env ctx (chars path_template).length (chars path_template)
  let interpolated := ofChars ip
  _ ← check_import env.policy interpolated
  import_attr env interpolated

/-- `Resolver._resolve_interpolated_callable`. -/
def resolve_interpolated_callable (env : REnv) (ctx : Fields) (p : String) :
    Except Err Node :=
  if is_single_variable p then resolve_single_variable env ctx p
  else if is_method_call p then resolve_method_call env ctx p
  else resolve_variable_interpolation env ctx p

/-- `Resolver._resolve_direct_callable`. -/
def resolve_direct_callable (env : REnv) (p : String) : Except Err Node := do
  _ ← check_import env.policy p
  import_attr env p

/-! ## Include machinery (`src/pyamlo/include.py`) -/

/-- Remove a key (Python `dict.pop(k, default)`'s removal effect). -/
def removeF (es : Fields) (k : String) : Fields :=
  match es with
  | [] => []
  | (k', v) :: rest => if k' = k then rest else (k', v) :: removeF rest k

/-- `load_raw(path)`: the parsed content of a file, or the include-error
for a missing one. -/
def load_raw (env : REnv) (path : String) : Except Err Fields :=
  match List.lookup path env.fs with
  | some doc => .ok doc
  | none => .error (.includeNotFound path)

/-- `set_base_paths(data, base_path)`: stamp every `IncludeSpec` /
`IncludeFromSpec` in the tree, descending through dicts and lists only. -/
def set_base_paths (fuel : Nat) (bp : String) (n : Node) : Node :=
  match fuel with
  | 0 => n
  | f + 1 =>
    match n with
    | .includeSpec p _ => .includeSpec p (some bp)
    | .includeFromSpec p _ => .includeFromSpec p (some bp)
    | .pdict es => .pdict (es.map (fun kv => (kv.1, set_base_paths f bp kv.2)))
    | .plist xs => .plist (xs.map (fun x => set_base_paths f bp x))
    | other => other

/-- `set_base_paths` over a top-level mapping. -/
def set_base_pathsF (fuel : Nat) (bp : String) (es : Fields) : Fields :=
  es.map (fun kv => (kv.1, set_base_paths fuel bp kv.2))

/-- `_load_include(entry, base_path, security_policy)`: string entries
only — join against the including file's directory, gate, load, stamp. -/
def load_include (fuel : Nat) (env : REnv) (entry : Node) (base_path : Option String) :
    Except Err Fields :=
  match entry with
  | .pstr e0 =>
    let e1 :=
      match base_path with
      | some bp => if isAbs e0 then e0 else joinPath (dirName bp) e0
      | none => e0
    do
      _ ← check_include env.policy e1
      let raw ← load_raw env e1
      .ok (set_base_pathsF fuel e1 raw)
  | _ => .error .invalidIncludeEntry

/-- `process_includes(raw, base_path, security_policy)`: pop the
`include!` list, load and fold its entries into an accumulator with
`deep_merge`, then merge the remainder of the document on top.  (This
generation does not recurse into the loaded parts.) -/
def process_includes (fuel : Nat) (env : REnv) (raw : Fields) (base_path : Option String) :
    Except Err Fields := do
  let incs : List Node ←
    match lookupF raw ("include!") with
    | some (.plist entries) => .ok entries
    | some _ => .error .invalidIncludeEntry
    | none => .ok []
  let raw' := removeF raw ("include!")
  let merged ← incs.foldlM
    (fun acc entry => do
      let part ← load_include fuel env entry base_path
      deep_merge fuel acc part)
    ([] : Fields)
  deep_merge fuel merged raw'

/-- The loading half of `Resolver._include`: interpolate `${var}` tokens
in the node's path with plain context lookups (`str(self._get(...))` —
no expression evaluation here), join against the recorded base path when
the latter is truthy and the path relative, gate, load, expand. -/
def include_load (fuel : Nat) (env : REnv) (ctx : Fields) (p : String)
    (bp : Option String) : Except Err Fields := do
  let fnC ← subTokens
    (fun g => do
      let v ← rget env.attrs ctx g
      .ok (pyStr v))
    (chars p).length (chars p)
  let fn0 := ofChars fnC
  let fn1 :=
    match bp with
    | some b => if b ≠ "" && !isAbs fn0 then joinPath (dirName b) fn0 else fn0
    | none => fn0
  _ ← check_include env.policy fn1
  let raw ← load_raw env fn1
  process_includes fuel env raw (some fn1)

/-! ## The Resolver traversal (`Resolver.resolve`) -/

/-- Child path formation: `f"{path}.{key}" if path else key`. -/
def childPath (path key : String) : String :=
  if path = "" then key else path ++ "." ++ key

/-- The inner walk of the parent-update block: navigate (creating empty
dicts as needed) down the remaining parts and set the final one.  A
non-dict intermediate raises, as Python's item access would. -/
def nestedSet (d : Fields) : List String → Node → Except Err Fields
  | [], _ => .ok d
  | [last], v => .ok (updateF d last v)
  | p :: rest, v =>
    let cur := match lookupF d p with
      | some c => c
      | none => .pdict []
    match cur with
    | .pdict es => do
      let es' ← nestedSet es rest v
      .ok (updateF d p (.pdict es'))
    | _ => .error (.typeError ("does not support item assignment"))

/-- The "ensure all parent paths are updated" block of the dict handler:
for every proper dotted prefix of `child` that is present in the context
as a dict, write the resolved value through at the relative position.
(In CPython this is how the context entry for an enclosing mapping — the
same object as the frame's `out` — comes to hold its resolved children;
the model performs the synchronisation this block does explicitly.) -/
def update_parent_paths (ctx : Fields) (child : String) (rv : Node) :
    Except Err Fields :=
  if hasDot child then
    let parts := pySplitDot child
    (List.range (parts.length - 1)).foldlM
      (fun cc i =>
        let parent_path := joinDots (parts.take (i + 1))
        match lookupF cc parent_path with
        | some (.pdict es) => do
          let es' ← nestedSet es (parts.drop (i + 1)) rv
          .ok (updateF cc parent_path (.pdict es'))
        | _ => .ok cc)
      ctx
  else .ok ctx

/-- The shared tail of a dict entry: record in the result mapping, record
in the context under the child path, then run the parent-update block. -/
def dict_entry_finish (out ctx : Fields) (key child : String) (rv : Node) :
    Except Err (Fields × Fields) := do
  let out' := updateF out key rv
  let c1 := updateF ctx child rv
  let c2 ← update_parent_paths c1 child rv
  .ok (out', c2)

/-- `Resolver._resolve_var_to_string`: evaluate or look up, stringify.
Note this path performs no `check_expression` (mirroring the source). -/
def resolve_var_to_string (env : REnv) (ctx : Fields) (expression : String) :
    Except Err String := do
  let result ←
    if is_expression expression then evaluate (rget env.attrs ctx) expression
    else rget env.attrs ctx expression
  .ok (pyStr result)

/-- The string register of `Resolver.resolve`: a full-string `${EXPR}`
either evaluates (after the security gate) or looks up; mixed text
substitutes every token's stringified value. -/
def resolve_str (env : REnv) (ctx : Fields) (s : String) : Except Err Node :=
  match fullmatchVar s with
  | some expression =>
    if is_expression expression then do
      _ ← check_expression env.policy expression
      evaluate (rget env.attrs ctx) expression
    else rget env.attrs ctx expression
  | none => do
    let out ← subTokens (resolve_var_to_string env ctx) (chars s).length (chars s)
    .ok (.pstr (ofChars out))

/-- The body of the dict handler's per-entry loop: resolve the child at
its dotted path, then either splice a `_`-keyed IncludeFromSpec mapping
directly into the result (recording each merged key in the context and
adding no `_` entry) or record the entry normally.  `rec` is the
recursive resolve call. -/
def dict_step (rec : Fields → Node → String → Except Err (Node × Fields))
    (path : String) (acc : Fields × Fields) (kv : String × Node) :
    Except Err (Fields × Fields) := do
  let key := kv.1
  let child := childPath path key
  let (rv, c1) ← rec acc.2 kv.2 child
  if key = "_" then
    match kv.2, rv with
    | .includeFromSpec _ _, .pdict merged =>
      .ok (updateAllF acc.1 merged,
           merged.foldl (fun cc m => updateF cc (childPath path m.1) m.2) c1)
    | .includeFromSpec _ _, _ => dict_entry_finish acc.1 c1 key child rv
    | _, _ => dict_entry_finish acc.1 c1 key child rv
  else dict_entry_finish acc.1 c1 key child rv

/-- `Resolver.resolve`, fuel-indexed.  Returns the resolved value and the
updated resolution context.  The context entry for a mapping's own path
is written (empty) when the mapping's frame starts and synchronised with
the finished mapping when it ends — in CPython both happen through the
single mutable `out` object registered at frame start. -/
def resolve (fuel : Nat) (env : REnv) (ctx : Fields) (node : Node) (path : String) :
    Except Err (Node × Fields) :=
  match fuel with
  | 0 => .error .fuel
  | f + 1 =>
    match node with
    | .importSpec p => do
      _ ← check_import env.policy p
      let v ← import_attr env p
      .ok (v, ctx)
    | .includeSpec p bp => do
      let merged ← include_load f env ctx p bp
      resolve f env ctx (.pdict merged) ""
    | .includeFromSpec p bp => do
      let merged ← include_load f env ctx p bp
      let (resolved, ctx1) ← resolve f env ctx (.pdict merged) ""
      let target := (pySplitDot path).getLastD ""
      if target = "_" then .ok (resolved, ctx1)
      else
        match resolved with
        | .pdict es =>
          (match lookupF es target with
           | some v => .ok (v, ctx1)     -- dict.pop: the value; the popped dict is dropped
           | none => .error (.includeKeyMissing p target))
        | _ => .error (.attributeError ("pop"))
    | .callSpec p args kwargs is_interp => do
      let fn ←
        if is_interp then resolve_interpolated_callable env ctx p
        else resolve_direct_callable env p
      let ar ← args.foldlM
        (fun (acc : List Node × Fields) a => do
          let (v, c1) ← resolve f env acc.2 a path
          .ok (acc.1 ++ [v], c1))
        (([] : List Node), ctx)
      let kw ← kwargs.foldlM
        (fun (acc : Fields × Fields) kv => do
          let (v, c1) ← resolve f env acc.2 kv.2 path
          .ok (acc.1 ++ [(kv.1, v)], c1))
        (([] : Fields), ar.2)
      let inst ← apply_call fn ar.1 kw.1
      .ok (inst, updateF kw.2 path inst)
    | .pdict es => do
      let ctx0 := updateF ctx path (.pdict [])
      let r ← es.foldlM
        (dict_step (fun c n p => resolve f env c n p) path)
        (([] : Fields), ctx0)
      .ok (.pdict r.1, updateF r.2 path (.pdict r.1))
    | .plist xs => do
      let r ← xs.foldlM
        (fun (acc : List Node × Fields) x => do
          let (v, c1) ← resolve f env acc.2 x path
          .ok (acc.1 ++ [v], c1))
        (([] : List Node), ctx)
      .ok (.plist r.1, r.2)
    | .pstr s => do
      let v ← resolve_str env ctx s
      .ok (v, ctx)
    | other => .ok (other, ctx)

/-! ## Command-line entry point (`src/pyamlo/__main__.py`) -/

/-- What `parse_args` extracts from `sys.argv[1:]`. -/
structure ParsedArgs where
  config_files : List String
  override_args : List String
  cfg_output_file : Option String
  deriving DecidableEq, Repr

/-- `parse_args(args)`. -/
def parse_args (args : List String) : ParsedArgs :=
  args.foldl
    (fun acc arg =>
      if isPrefixL (chars ("--cfg-output=")) (chars arg) then
        { acc with cfg_output_file := some (ofChars ((chars arg).drop 13)) }
      else if isPrefixL (chars ("pyamlo.")) (chars arg) &&
          (chars arg).contains ('=') then
        { acc with override_args := acc.override_args ++ [arg] }
      else if !isPrefixL (chars ("-")) (chars arg) then
        { acc with config_files := acc.config_files ++ [arg] }
      else acc)
    { config_files := [], override_args := [], cfg_output_file := none }

/-- Observable outcome of one `main()` run: the exit code, the lines
written to stdout and stderr, and the JSON export (path and the config it
serialises), if any. -/
structure CliResult where
  exitCode : Nat
  stdoutLines : List String
  stderrLines : List String
  jsonWritten : Option (String × Fields)

/-- The usage block `main` prints (to standard output) after a
`ValueError`. -/
def usageLines : List String :=
  [("\nUsage: python -m pyamlo config.yaml [config2.yaml ...] [pyamlo.key=value ...]"),
   ("\nExamples:"),
   ("  python -m pyamlo config.yaml"),
   ("  python -m pyamlo base.yaml override.yaml pyamlo.debug=true"),
   ("  python -m pyamlo config.yaml pyamlo.app.name=MyApp pyamlo.database.host=localhost")]

/-- `main()`, with `load_config` abstracted as a function from the parsed
argument lists to a result or error message (the claims under test are
about `main`'s own control flow, not about loading).  On success the
config is *not* printed; it is only serialised when `--cfg-output=` was
given.  A `ValueError` prints `Error: ...` to stderr but the usage block
to stdout; any other error prints one line to stderr.  Exit codes follow
the source. -/
def cliMain (load : List String → List String → Except String Fields)
    (args : List String) : CliResult :=
  let pa := parse_args args
  if pa.config_files.isEmpty then
    -- raise ValueError("At least one config file must be provided")
    { exitCode := 1
      stdoutLines := usageLines
      stderrLines := [("Error: At least one config file must be provided")]
      jsonWritten := none }
  else
    match load pa.config_files pa.override_args with
    | .ok config =>
      { exitCode := 0
        stdoutLines := []
        stderrLines := []
        jsonWritten := pa.cfg_output_file.map (fun p => (p, config)) }
    | .error msg =>
      { exitCode := 1
        stdoutLines := []
        stderrLines := [("Error loading configuration: " ++ msg)]
        jsonWritten := none }

/-! ## Concrete fixtures used by the theorems and witnesses -/

/-- `SecurityPolicy(restrictive=False)` — the `Resolver` default. -/
def permissivePolicy : SecurityPolicy := SecurityPolicy.default false

/-- `SecurityPolicy()` — the library default (restrictive). -/
def restrictivePolicy : SecurityPolicy := SecurityPolicy.default true

/-- A resolver environment with no files and no importable symbols. -/
def envPlain : REnv :=
  { fs := [], imports := [], policy := permissivePolicy, attrs := noAttrs }

/-- The import table for the two constructors the claims exercise. -/
def claimsImports : Fields :=
  [("collections.Counter", .pyfun .counter), ("pathlib.Path", .pyfun .pathCtor)]

/-- Environment with the constructors importable. -/
def envObjects : REnv :=
  { fs := [], imports := claimsImports, policy := permissivePolicy, attrs := noAttrs }

/-- One include file `/app/inc.yaml` containing `{svc: {port: 80}, extra: 1}`. -/
def incFsA : List (String × Fields) :=
  [("/app/inc.yaml", [("svc", .pdict [("port", .pint 80)]), ("extra", .pint 1)])]

/-- Environment exposing `incFsA`. -/
def envInc : REnv :=
  { fs := incFsA, imports := [], policy := permissivePolicy, attrs := noAttrs }

/-- A variable resolver binding `a` and `b` to strings (for the
string-concatenation evidence of claim C10). -/
def sgetFoo (p : String) : Except Err Node :=
  match lookupF [("a", .pstr ("foo")), ("b", .pstr ("bar"))] p with
  | some v => .ok v
  | none => .error (.unknownVar p)

/-- The positional arguments of `!@collections.Counter [1,1,1,4,5]`. -/
def counterArgs : List Node := [.pint 1, .pint 1, .pint 1, .pint 4, .pint 5]

/-- Is the overlay value one of the two merge-modifier spec nodes
(the kinds `deep_merge` refuses at a key with no matching base)? -/
def isMergeMod : Node → Bool
  | .extendSpec _ => true
  | .patchSpec _ => true
  | _ => false

/-! ## Association-list lemmas -/

theorem lookupF_updateF_self (es : Fields) (k : String) (v : Node) :
    lookupF (updateF es k v) k = some v := by
  induction es with
  | nil => simp [updateF, lookupF]
  | cons h t ih =>
    by_cases hk : h.1 = k
    · simp [updateF, lookupF, hk]
    · simp [updateF, lookupF, hk, ih]

theorem lookupF_updateF_ne (es : Fields) (k' k : String) (v : Node) (h : k' ≠ k) :
    lookupF (updateF es k' v) k = lookupF es k := by
  induction es with
  | nil => simp [updateF, lookupF, h]
  | cons hd t ih =>
    by_cases hk : hd.1 = k'
    · simp [updateF, lookupF, hk, h]
    · by_cases hk2 : hd.1 = k
      · simp [updateF, lookupF, hk, hk2, Ne.symm h]
      · simp [updateF, lookupF, hk, hk2, ih]

theorem lookupF_eq_none_of_not_mem (es : Fields) (k : String)
    (h : k ∉ keysOf es) : lookupF es k = none := by
  induction es with
  | nil => rfl
  | cons hd t ih =>
    simp [keysOf] at h
    have h1 : hd.1 ≠ k := fun he => h.1 he.symm
    simp [lookupF, h1, ih (by simp [keysOf]; exact fun a ha => h.2 a ha)]

theorem keysOf_cons (hd : String × Node) (t : Fields) :
    keysOf (hd :: t) = hd.1 :: keysOf t := rfl

/-! ## deep_merge lemmas -/

/-- A successful `merge_entry` only rewrites its own key. -/
theorem merge_entry_shape (dm : Fields → Fields → Except Err Fields)
    (a : Fields) (key : String) (val : Node) (a' : Fields)
    (h : merge_entry dm a key val = .ok a') :
    ∃ w, a' = updateF a key w := by
  unfold merge_entry at h
  split at h
  · exact ⟨_, (by cases h; rfl)⟩
  · rename_i p ar kw ii mapping _
    cases hdm : dm kw mapping with
    | ok kw' => rw [hdm] at h; simp [bind, Except.bind] at h; exact ⟨_, h.symm⟩
    | error e => rw [hdm] at h; simp [bind, Except.bind] at h
  · exact ⟨_, (by cases h; rfl)⟩
  · exact ⟨_, (by cases h; rfl)⟩
  · cases h
  · cases h
  · rename_i bm om _
    cases hdm : dm bm om with
    | ok m' => rw [hdm] at h; simp [bind, Except.bind] at h; exact ⟨_, h.symm⟩
    | error e => rw [hdm] at h; simp [bind, Except.bind] at h
  · exact ⟨_, (by cases h; rfl)⟩

/-- Keys absent from the overlay are untouched by `deep_merge`. -/
theorem deep_merge_absent (fu : Nat) (b a r : Fields) (k : String)
    (hm : deep_merge fu a b = .ok r) (hb : lookupF b k = none) :
    lookupF r k = lookupF a k := by
  induction b generalizing a fu with
  | nil =>
    cases fu with
    | zero => simp [deep_merge] at hm
    | succ f => simp [deep_merge] at hm; rw [hm]
  | cons hd rest ih =>
    cases fu with
    | zero => simp [deep_merge] at hm
    | succ f =>
      simp only [deep_merge] at hm
      cases hme : merge_entry (deep_merge f) a hd.1 hd.2 with
      | error e => rw [hme] at hm; simp [bind, Except.bind] at hm
      | ok a' =>
        rw [hme] at hm
        simp only [bind, Except.bind] at hm
        have hk : hd.1 ≠ k := by
          intro hkk
          simp [lookupF, hkk] at hb
        have hrest : lookupF rest k = none := by
          simpa [lookupF, hk] using hb
        obtain ⟨w, hw⟩ := merge_entry_shape _ _ _ _ _ hme
        rw [ih f a' hm hrest, hw, lookupF_updateF_ne _ _ _ _ hk]

theorem merge_entry_extend (dm : Fields → Fields → Except Err Fields)
    (a : Fields) (k : String) (xs ys : List Node)
    (h : lookupF a k = some (.plist xs)) :
    merge_entry dm a k (.extendSpec ys) = .ok (updateF a k (.plist (xs ++ ys))) := by
  simp [merge_entry, h]

theorem merge_entry_patch (dm : Fields → Fields → Except Err Fields)
    (a : Fields) (k : String) (ms m : Fields)
    (h : lookupF a k = some (.pdict ms)) :
    merge_entry dm a k (.patchSpec m) = .ok (updateF a k (.pdict m)) := by
  simp [merge_entry, h]

/-- A sequence in the base under an ExtendSpec in the overlay becomes the
concatenation, base first. -/
theorem deep_merge_extend_at (fu : Nat) (b a r : Fields) (k : String)
    (xs ys : List Node)
    (hm : deep_merge fu a b = .ok r)
    (ha : lookupF a k = some (.plist xs))
    (hb : lookupF b k = some (.extendSpec ys))
    (hnd : (keysOf b).Nodup) :
    lookupF r k = some (.plist (xs ++ ys)) := by
  induction b generalizing a fu with
  | nil => simp [lookupF] at hb
  | cons hd rest ih =>
    rw [keysOf_cons, List.nodup_cons] at hnd
    cases fu with
    | zero => simp [deep_merge] at hm
    | succ f =>
      simp only [deep_merge] at hm
      by_cases hk : hd.1 = k
      · have hv : hd.2 = .extendSpec ys := by
          simp [lookupF, hk] at hb; exact hb
        rw [hv, hk, merge_entry_extend _ _ _ _ _ ha] at hm
        simp only [bind, Except.bind] at hm
        have hrest : lookupF rest k = none :=
          lookupF_eq_none_of_not_mem rest k (hk ▸ hnd.1)
        rw [deep_merge_absent f rest _ r k hm hrest, lookupF_updateF_self]
      · have hb2 : lookupF rest k = some (.extendSpec ys) := by
          simpa [lookupF, hk] using hb
        cases hme : merge_entry (deep_merge f) a hd.1 hd.2 with
        | error e => rw [hme] at hm; simp [bind, Except.bind] at hm
        | ok a2 =>
          rw [hme] at hm
          simp only [bind, Except.bind] at hm
          obtain ⟨w, hw⟩ := merge_entry_shape _ _ _ _ _ hme
          have ha2 : lookupF a2 k = some (.plist xs) := by
            rw [hw, lookupF_updateF_ne _ _ _ _ hk, ha]
          exact ih f a2 hm ha2 hb2 hnd.2

/-- A mapping in the base under a PatchSpec in the overlay is replaced
wholesale by the patch's mapping. -/
theorem deep_merge_patch_at (fu : Nat) (b a r : Fields) (k : String)
    (ms m : Fields)
    (hm : deep_merge fu a b = .ok r)
    (ha : lookupF a k = some (.pdict ms))
    (hb : lookupF b k = some (.patchSpec m))
    (hnd : (keysOf b).Nodup) :
    lookupF r k = some (.pdict m) := by
  induction b generalizing a fu with
  | nil => simp [lookupF] at hb
  | cons hd rest ih =>
    rw [keysOf_cons, List.nodup_cons] at hnd
    cases fu with
    | zero => simp [deep_merge] at hm
    | succ f =>
      simp only [deep_merge] at hm
      by_cases hk : hd.1 = k
      · have hv : hd.2 = .patchSpec m := by
          simp [lookupF, hk] at hb; exact hb
        rw [hv, hk, merge_entry_patch _ _ _ _ _ ha] at hm
        simp only [bind, Except.bind] at hm
        have hrest : lookupF rest k = none :=
          lookupF_eq_none_of_not_mem rest k (hk ▸ hnd.1)
        rw [deep_merge_absent f rest _ r k hm hrest, lookupF_updateF_self]
      · have hb2 : lookupF rest k = some (.patchSpec m) := by
          simpa [lookupF, hk] using hb
        cases hme : merge_entry (deep_merge f) a hd.1 hd.2 with
        | error e => rw [hme] at hm; simp [bind, Except.bind] at hm
        | ok a2 =>
          rw [hme] at hm
          simp only [bind, Except.bind] at hm
          obtain ⟨w, hw⟩ := merge_entry_shape _ _ _ _ _ hme
          have ha2 : lookupF a2 k = some (.pdict ms) := by
            rw [hw, lookupF_updateF_ne _ _ _ _ hk, ha]
          exact ih f a2 hm ha2 hb2 hnd.2

theorem merge_entry_new_plain (dm : Fields → Fields → Except Err Fields)
    (a : Fields) (k : String) (v : Node)
    (h : lookupF a k = none) (hv : isMergeMod v = false) :
    merge_entry dm a k v = .ok (updateF a k v) := by
  unfold merge_entry
  rw [h]
  cases v <;> simp_all [isMergeMod]

theorem merge_entry_new_mod (dm : Fields → Fields → Except Err Fields)
    (a : Fields) (k : String) (v : Node)
    (h : lookupF a k = none) (hv : isMergeMod v = true) :
    ∃ e, merge_entry dm a k v = .error e := by
  unfold merge_entry
  rw [h]
  cases v <;> simp_all [isMergeMod]

/-- A key new to the base whose overlay value is not a merge modifier is
copied into the result unchanged. -/
theorem deep_merge_new_key (fu : Nat) (b a r : Fields) (k : String) (v : Node)
    (hm : deep_merge fu a b = .ok r)
    (ha : lookupF a k = none)
    (hb : lookupF b k = some v)
    (hv : isMergeMod v = false)
    (hnd : (keysOf b).Nodup) :
    lookupF r k = some v := by
  induction b generalizing a fu with
  | nil => simp [lookupF] at hb
  | cons hd rest ih =>
    rw [keysOf_cons, List.nodup_cons] at hnd
    cases fu with
    | zero => simp [deep_merge] at hm
    | succ f =>
      simp only [deep_merge] at hm
      by_cases hk : hd.1 = k
      · have hval : hd.2 = v := by
          simp [lookupF, hk] at hb; exact hb
        rw [hval, hk, merge_entry_new_plain _ _ _ _ ha hv] at hm
        simp only [bind, Except.bind] at hm
        have hrest : lookupF rest k = none :=
          lookupF_eq_none_of_not_mem rest k (hk ▸ hnd.1)
        rw [deep_merge_absent f rest _ r k hm hrest, lookupF_updateF_self]
      · have hb2 : lookupF rest k = some v := by
          simpa [lookupF, hk] using hb
        cases hme : merge_entry (deep_merge f) a hd.1 hd.2 with
        | error e => rw [hme] at hm; simp [bind, Except.bind] at hm
        | ok a2 =>
          rw [hme] at hm
          simp only [bind, Except.bind] at hm
          obtain ⟨w, hw⟩ := merge_entry_shape _ _ _ _ _ hme
          have ha2 : lookupF a2 k = none := by
            rw [hw, lookupF_updateF_ne _ _ _ _ hk, ha]
          exact ih f a2 hm ha2 hb2 hnd.2

/-- A merge modifier at a key new to the base makes the whole merge
fail. -/
theorem deep_merge_new_mod_fails (fu : Nat) (b a : Fields) (k : String) (v : Node)
    (ha : lookupF a k = none)
    (hb : lookupF b k = some v)
    (hv : isMergeMod v = true) :
    ∀ r, deep_merge fu a b ≠ .ok r := by
  induction b generalizing a fu with
  | nil => simp [lookupF] at hb
  | cons hd rest ih =>
    intro r hm
    cases fu with
    | zero => simp [deep_merge] at hm
    | succ f =>
      simp only [deep_merge] at hm
      by_cases hk : hd.1 = k
      · have hval : hd.2 = v := by
          simp [lookupF, hk] at hb; exact hb
        obtain ⟨e, he⟩ := merge_entry_new_mod (deep_merge f) a k v ha hv
        rw [hval, hk, he] at hm
        simp [bind, Except.bind] at hm
      · have hb2 : lookupF rest k = some v := by
          simpa [lookupF, hk] using hb
        cases hme : merge_entry (deep_merge f) a hd.1 hd.2 with
        | error e => rw [hme] at hm; simp [bind, Except.bind] at hm
        | ok a2 =>
          rw [hme] at hm
          simp only [bind, Except.bind] at hm
          obtain ⟨w, hw⟩ := merge_entry_shape _ _ _ _ _ hme
          have ha2 : lookupF a2 k = none := by
            rw [hw, lookupF_updateF_ne _ _ _ _ hk, ha]
          exact ih f a2 ha2 hb2 r hm

/-! ## Resolver lemmas -/

theorem resolve_pint (f : Nat) (env : REnv) (c : Fields) (n : Int) (p : String) :
    resolve (f + 1) env c (.pint n) p = .ok (.pint n, c) := rfl

theorem childPath_root (k : String) : childPath "" k = k := rfl

/-- Unfolding equation for the mapping case of `resolve`. -/
theorem resolve_pdict_eq (f : Nat) (env : REnv) (ctx : Fields) (es : Fields)
    (path : String) :
    resolve (f + 1) env ctx (.pdict es) path =
      (es.foldlM (dict_step (fun c n p => resolve f env c n p) path)
        (([] : Fields), updateF ctx path (.pdict []))) >>=
        (fun r => .ok (.pdict r.1, updateF r.2 path (.pdict r.1))) := rfl

/-- A scalar entry of a root mapping resolves to itself and is recorded
in the result and the context under its key. -/
theorem dict_step_scalar (rec : Fields → Node → String → Except Err (Node × Fields))
    (out c : Fields) (k : String) (n : Int)
    (hrec : rec c (.pint n) (childPath "" k) = .ok (.pint n, c))
    (hdot : hasDot k = false) :
    dict_step rec "" (out, c) (k, .pint n) =
      .ok (updateF out k (.pint n), updateF c k (.pint n)) := by
  rw [childPath_root] at hrec
  unfold dict_step
  simp only [childPath_root, hrec, bind, Except.bind]
  by_cases hk : k = "_"
  · subst hk
    have hd2 : hasDot "_" = false := rfl
    simp [dict_entry_finish, update_parent_paths, hd2, bind, Except.bind, childPath_root]
  · simp [hk, dict_entry_finish, update_parent_paths, childPath_root, hdot,
      bind, Except.bind]

/-- Processing a prefix of dot-free integer entries accumulates them, in
order, into both the result mapping and the context. -/
theorem fold_scalars (f : Nat) (env : REnv) (pre : List (String × Int)) :
    ∀ (out0 c0 : Fields),
    (∀ k ∈ pre.map Prod.fst, hasDot k = false) →
    (pre.map (fun p => (p.1, Node.pint p.2))).foldlM
        (dict_step (fun c n p => resolve (f + 1) env c n p) "") (out0, c0) =
      .ok (pre.foldl (fun o p => updateF o p.1 (.pint p.2)) out0,
           pre.foldl (fun c p => updateF c p.1 (.pint p.2)) c0) := by
  induction pre with
  | nil => intro out0 c0 _; rfl
  | cons hd rest ih =>
    intro out0 c0 hdots
    have hstep := dict_step_scalar (fun c n p => resolve (f + 1) env c n p)
      out0 c0 hd.1 hd.2 (resolve_pint f env c0 hd.2 (childPath "" hd.1))
      (hdots hd.1 (by simp))
    simp only [List.map_cons, List.foldlM, hstep, bind, Except.bind]
    rw [ih _ _ (fun k hk => hdots k (by simp [hk]))]
    simp [List.foldl]

theorem lookup_foldl_preserve (pre : List (String × Int)) (c0 : Fields) (q : String)
    (h : q ∉ pre.map Prod.fst) :
    lookupF (pre.foldl (fun c p => updateF c p.1 (.pint p.2)) c0) q = lookupF c0 q := by
  induction pre generalizing c0 with
  | nil => rfl
  | cons hd rest ih =>
    simp at h
    rw [List.foldl_cons, ih _ (by simp; exact fun a ha => h.2 a ha),
      lookupF_updateF_ne _ _ _ _ (fun he => h.1 he.symm)]

theorem lookup_foldl_updateF (pre : List (String × Int)) (c0 : Fields)
    (q : String) (m : Int)
    (hmem : (q, m) ∈ pre) (hnd : (pre.map Prod.fst).Nodup) :
    lookupF (pre.foldl (fun c p => updateF c p.1 (.pint p.2)) c0) q =
      some (.pint m) := by
  induction pre generalizing c0 with
  | nil => cases hmem
  | cons hd rest ih =>
    rw [List.map_cons, List.nodup_cons] at hnd
    rcases List.mem_cons.mp hmem with heq | hmem2
    · rw [List.foldl_cons]
      have hq : q ∉ rest.map Prod.fst := by
        rw [← heq] at hnd
        exact hnd.1
      rw [lookup_foldl_preserve rest _ q hq, ← heq]
      exact lookupF_updateF_self c0 q (.pint m)
    · exact List.foldl_cons _ _ ▸ ih _ hmem2 hnd.2

/-- A single full-string `${q}` reference to an exact context entry
resolves to that entry's value. -/
theorem resolve_ref (f : Nat) (env : REnv) (c : Fields) (q tok p : String) (val : Node)
    (hfm : fullmatchVar tok = some q)
    (hqe : is_expression q = false)
    (hhit : lookupF c q = some val) :
    resolve (f + 1) env c (.pstr tok) p = .ok (val, c) := by
  simp [resolve, resolve_str, hfm, hqe, rget, hhit, bind, Except.bind]

/-- A single full-string `${q}` reference to a name with no context
entry fails with the unknown-variable error naming it. -/
theorem resolve_ref_unknown (f : Nat) (env : REnv) (c : Fields) (q tok p : String)
    (hfm : fullmatchVar tok = some q)
    (hqe : is_expression q = false)
    (hmiss : lookupF c q = none)
    (hsplit : pySplitDot q = [q]) :
    resolve (f + 1) env c (.pstr tok) p = .error (.unknownVar q) := by
  simp [resolve, resolve_str, hfm, hqe, rget, hmiss, hsplit, bind, Except.bind]

theorem dict_step_str (rec : Fields → Node → String → Except Err (Node × Fields))
    (out c : Fields) (k tok : String) (val : Node)
    (hrec : rec c (.pstr tok) (childPath "" k) = .ok (val, c))
    (hdot : hasDot k = false) :
    dict_step rec "" (out, c) (k, .pstr tok) =
      .ok (updateF out k val, updateF c k val) := by
  rw [childPath_root] at hrec
  unfold dict_step
  simp only [childPath_root, hrec, bind, Except.bind]
  by_cases hk : k = "_"
  · subst hk
    have hd2 : hasDot "_" = false := rfl
    simp [dict_entry_finish, update_parent_paths, hd2, bind, Except.bind, childPath_root]
  · simp [hk, dict_entry_finish, update_parent_paths, childPath_root, hdot,
      bind, Except.bind]

theorem dict_step_err (rec : Fields → Node → String → Except Err (Node × Fields))
    (acc : Fields × Fields) (kv : String × Node) (e : Err)
    (hrec : rec acc.2 kv.2 (childPath "" kv.1) = .error e) :
    dict_step rec "" acc kv = .error e := by
  unfold dict_step
  simp [hrec, bind, Except.bind]

/-- Backward references: after any prefix of dot-free integer siblings, a
full-string `${q}` referencing one of them yields that sibling's value. -/
theorem resolve_backward (f : Nat) (env : REnv) (ctx : Fields)
    (pre : List (String × Int)) (j q : String) (m : Int)
    (hmem : (q, m) ∈ pre)
    (hnd : (pre.map Prod.fst).Nodup)
    (hdots : ∀ k ∈ pre.map Prod.fst, hasDot k = false)
    (hjdot : hasDot j = false)
    (hfm : fullmatchVar ("$\x7b" ++ q ++ "\x7d") = some q)
    (hqe : is_expression q = false) :
    ∃ out ctx2,
      resolve (f + 2) env ctx
        (.pdict (pre.map (fun p => (p.1, Node.pint p.2)) ++
          [(j, .pstr ("$\x7b" ++ q ++ "\x7d"))])) "" = .ok (.pdict out, ctx2) ∧
      lookupF out j = some (.pint m) := by
  have hq : lookupF (pre.foldl (fun c p => updateF c p.1 (.pint p.2))
      (updateF ctx "" (.pdict []))) q = some (.pint m) :=
    lookup_foldl_updateF pre _ q m hmem hnd
  have href := resolve_ref f env
    (pre.foldl (fun c p => updateF c p.1 (.pint p.2)) (updateF ctx "" (.pdict [])))
    q ("$\x7b" ++ q ++ "\x7d") (childPath "" j) (.pint m) hfm hqe hq
  have hstep := dict_step_str (fun c n p => resolve (f + 1) env c n p)
    (pre.foldl (fun o p => updateF o p.1 (.pint p.2)) [])
    (pre.foldl (fun c p => updateF c p.1 (.pint p.2)) (updateF ctx "" (.pdict [])))
    j ("$\x7b" ++ q ++ "\x7d") (.pint m) href hjdot
  refine ⟨updateF (pre.foldl (fun o p => updateF o p.1 (.pint p.2)) []) j (.pint m),
    updateF
      (updateF (pre.foldl (fun c p => updateF c p.1 (.pint p.2))
        (updateF ctx "" (.pdict []))) j (.pint m)) ""
      (.pdict (updateF (pre.foldl (fun o p => updateF o p.1 (.pint p.2)) []) j (.pint m))),
    ?_, lookupF_updateF_self _ j (.pint m)⟩
  show resolve (f + 1 + 1) env ctx _ "" = _
  rw [resolve_pdict_eq (f + 1) env ctx _ "", List.foldlM_append,
    fold_scalars f env pre _ _ hdots]
  simp only [bind, Except.bind, List.foldlM, hstep, pure, Except.pure]

/-- Unknown / forward / self references: a full-string `${q}` whose name
has no context entry when it is visited fails with the unknown-variable
error — whatever entries (including `q` itself) come later. -/
theorem resolve_unknown_first (f : Nat) (env : REnv) (ctx : Fields)
    (j q : String) (rest : Fields)
    (hfm : fullmatchVar ("$\x7b" ++ q ++ "\x7d") = some q)
    (hqe : is_expression q = false)
    (hsplit : pySplitDot q = [q])
    (hq0 : q ≠ "")
    (hmiss : lookupF ctx q = none) :
    resolve (f + 2) env ctx
      (.pdict ((j, .pstr ("$\x7b" ++ q ++ "\x7d")) :: rest)) "" =
      .error (.unknownVar q) := by
  have hmiss2 : lookupF (updateF ctx "" (.pdict [])) q = none := by
    rw [lookupF_updateF_ne _ _ _ _ (fun he => hq0 he.symm), hmiss]
  have href := resolve_ref_unknown f env (updateF ctx "" (.pdict []))
    q ("$\x7b" ++ q ++ "\x7d") (childPath "" j) hfm hqe hmiss2 hsplit
  have hstep := dict_step_err (fun c n p => resolve (f + 1) env c n p)
    (([] : Fields), updateF ctx "" (.pdict [])) (j, .pstr ("$\x7b" ++ q ++ "\x7d"))
    (.unknownVar q) href
  show resolve (f + 1 + 1) env ctx _ "" = _
  rw [resolve_pdict_eq (f + 1) env ctx _ ""]
  simp only [List.foldlM, hstep, bind, Except.bind]

/-! ## Claim C2 -/

/-- C2: The Resolver visits a mapping's keys in document order and
records each resolved child in the context under its dotted path before
later siblings are processed: a `${q}` reference to a sibling resolved
earlier in document order yields that sibling's value (first conjunct,
for an arbitrary prefix of scalar siblings), while a `${q}` whose name
has no context entry when visited — an undefined name, the node's own
not-yet-resolved name, or a forward reference to a later sibling —
raises the resolution error naming `q` instead of resolving out of order
or looping (second conjunct, for an arbitrary remainder of the document,
which may define `q` later).  The third conjunct instantiates the
pattern on a nested document: `services.secondary.port` interpolating
`${services.main.port}` defined earlier resolves to `8080`. -/
theorem resolver_document_order_and_unknown_vars :
    (∀ (f : Nat) (env : REnv) (ctx : Fields) (pre : List (String × Int))
       (j q : String) (m : Int),
      (q, m) ∈ pre →
      (pre.map Prod.fst).Nodup →
      (∀ k ∈ pre.map Prod.fst, hasDot k = false) →
      hasDot j = false →
      fullmatchVar ("$\x7b" ++ q ++ "\x7d") = some q →
      is_expression q = false →
      ∃ out ctx2,
        resolve (f + 2) env ctx
          (.pdict (pre.map (fun p => (p.1, Node.pint p.2)) ++
            [(j, .pstr ("$\x7b" ++ q ++ "\x7d"))])) "" = .ok (.pdict out, ctx2) ∧
        lookupF out j = some (.pint m)) ∧
    (∀ (f : Nat) (env : REnv) (ctx : Fields) (j q : String) (rest : Fields),
      fullmatchVar ("$\x7b" ++ q ++ "\x7d") = some q →
      is_expression q = false →
      pySplitDot q = [q] →
      q ≠ "" →
      lookupF ctx q = none →
      resolve (f + 2) env ctx
        (.pdict ((j, .pstr ("$\x7b" ++ q ++ "\x7d")) :: rest)) "" =
        .error (.unknownVar q)) ∧
    (∃ c, resolve 4 envPlain []
      (.pdict [("services", .pdict
        [("main", .pdict [("port", .pint 8080)]),
         ("secondary", .pdict [("port", .pstr ("${services.main.port}"))])])]) "" =
      .ok (.pdict [("services", .pdict
        [("main", .pdict [("port", .pint 8080)]),
         ("secondary", .pdict [("port", .pint 8080)])])], c)) := by
  refine ⟨?_, ?_, ⟨_, rfl⟩⟩
  · intro f env ctx pre j q m hmem hnd hdots hjdot hfm hqe
    exact resolve_backward f env ctx pre j q m hmem hnd hdots hjdot hfm hqe
  · intro f env ctx j q rest hfm hqe hsplit hq0 hmiss
    exact resolve_unknown_first f env ctx j q rest hfm hqe hsplit hq0 hmiss

/-- Witness for C2: the backward reference `{a: 1, b: ${a}}` resolves
`b` to `1`; `${not_defined_anywhere}` raises an error naming
`not_defined_anywhere`; the forward reference `{x: ${a}, a: 1}` and the
self reference `{a: ${a}}` fail the same way. -/
theorem resolver_document_order_witness :
    (∃ out ctx2, resolve 4 envPlain []
       (.pdict [("a", .pint 1), ("b", .pstr ("${a}"))]) "" = .ok (.pdict out, ctx2) ∧
       lookupF out ("b") = some (.pint 1)) ∧
    resolve 4 envPlain [] (.pdict [("x", .pstr ("${not_defined_anywhere}"))]) "" =
      .error (.unknownVar ("not_defined_anywhere")) ∧
    resolve 4 envPlain [] (.pdict [("x", .pstr ("${a}")), ("a", .pint 1)]) "" =
      .error (.unknownVar ("a")) ∧
    resolve 4 envPlain [] (.pdict [("a", .pstr ("${a}"))]) "" =
      .error (.unknownVar ("a")) :=
  ⟨resolver_document_order_and_unknown_vars.1 2 envPlain [] [(("a"), 1)]
      ("b") ("a") 1 (by decide) (by decide) (by decide) (by decide)
      (by decide) (by decide),
   resolver_document_order_and_unknown_vars.2.1 2 envPlain []
      ("x") ("not_defined_anywhere") [] (by decide) (by decide) (by decide)
      (by decide) rfl,
   resolver_document_order_and_unknown_vars.2.1 2 envPlain []
      ("x") ("a") [(("a"), .pint 1)] (by decide) (by decide) (by decide)
      (by decide) rfl,
   resolver_document_order_and_unknown_vars.2.1 2 envPlain []
      ("a") ("a") [] (by decide) (by decide) (by decide) (by decide) rfl⟩

/-! ## Claim C3 -/

/-- C3: `deep_merge` replaces a base sequence under an overlay
ExtendSpec at the same key with the concatenation base-first, and a base
mapping under an overlay PatchSpec with the patch's mapping wholesale
(keys absent from the patch dropped) — stated for arbitrary merges at an
arbitrary key, plus the two concrete instances of the claim:
`{items: [1,2,3]}` with `{items: !extend [4,5]}` gives
`items == [1,2,3,4,5]`, and `{settings: {a:1,b:2}}` with
`{settings: !patch {b:2,c:3}}` gives `settings == {b:2,c:3}`. -/
theorem deep_merge_extend_patch_semantics :
    (∀ (fu : Nat) (a b r : Fields) (k : String) (xs ys : List Node),
      deep_merge fu a b = .ok r →
      lookupF a k = some (.plist xs) →
      lookupF b k = some (.extendSpec ys) →
      (keysOf b).Nodup →
      lookupF r k = some (.plist (xs ++ ys))) ∧
    (∀ (fu : Nat) (a b r : Fields) (k : String) (ms m : Fields),
      deep_merge fu a b = .ok r →
      lookupF a k = some (.pdict ms) →
      lookupF b k = some (.patchSpec m) →
      (keysOf b).Nodup →
      lookupF r k = some (.pdict m)) ∧
    deep_merge 2 [("items", .plist [.pint 1, .pint 2, .pint 3])]
      [("items", .extendSpec [.pint 4, .pint 5])] =
      .ok [("items", .plist [.pint 1, .pint 2, .pint 3, .pint 4, .pint 5])] ∧
    deep_merge 2 [("settings", .pdict [("a", .pint 1), ("b", .pint 2)])]
      [("settings", .patchSpec [("b", .pint 2), ("c", .pint 3)])] =
      .ok [("settings", .pdict [("b", .pint 2), ("c", .pint 3)])] :=
  ⟨fun fu a b r k xs ys hm ha hb hnd => deep_merge_extend_at fu b a r k xs ys hm ha hb hnd,
   fun fu a b r k ms m hm ha hb hnd => deep_merge_patch_at fu b a r k ms m hm ha hb hnd,
   rfl, rfl⟩

/-- Witness for C3: both general conjuncts applied to the claim's own
concrete documents. -/
theorem deep_merge_extend_patch_witness :
    lookupF [("items", Node.plist [.pint 1, .pint 2, .pint 3, .pint 4, .pint 5])]
      ("items") = some (.plist ([.pint 1, .pint 2, .pint 3] ++ [.pint 4, .pint 5])) ∧
    lookupF [("settings", Node.pdict [("b", .pint 2), ("c", .pint 3)])]
      ("settings") = some (.pdict [("b", .pint 2), ("c", .pint 3)]) :=
  ⟨deep_merge_extend_patch_semantics.1 2
      [("items", .plist [.pint 1, .pint 2, .pint 3])]
      [("items", .extendSpec [.pint 4, .pint 5])]
      [("items", .plist [.pint 1, .pint 2, .pint 3, .pint 4, .pint 5])]
      ("items") [.pint 1, .pint 2, .pint 3] [.pint 4, .pint 5]
      rfl rfl rfl (by decide),
   deep_merge_extend_patch_semantics.2.1 2
      [("settings", .pdict [("a", .pint 1), ("b", .pint 2)])]
      [("settings", .patchSpec [("b", .pint 2), ("c", .pint 3)])]
      [("settings", .pdict [("b", .pint 2), ("c", .pint 3)])]
      ("settings") [("a", .pint 1), ("b", .pint 2)] [("b", .pint 2), ("c", .pint 3)]
      rfl rfl rfl (by decide)⟩

/-! ## Claim C8 -/

/-- Counterexample to C8 as stated: a PatchSpec — a spec node — in the
overlay at a key absent from the base is not copied as-is; the merge
fails with the cannot-patch error. -/
theorem deep_merge_overlay_copy_cex :
    deep_merge 2 [("x", .pint 1)] [("k", .patchSpec [("b", .pint 2)])] =
      .error (.cannotPatch ("k")) := rfl

/-- C8 (amended): for a key present only in the overlay, the value is
stored into the base unchanged *provided it is not an ExtendSpec or
PatchSpec*; those two spec nodes at a base-absent key abort the merge
with a MergeError instead (second conjunct); keys present only in the
base are always left untouched (third conjunct). -/
theorem deep_merge_overlay_copy_semantics :
    (∀ (fu : Nat) (a b r : Fields) (k : String) (v : Node),
      deep_merge fu a b = .ok r →
      lookupF a k = none →
      lookupF b k = some v →
      isMergeMod v = false →
      (keysOf b).Nodup →
      lookupF r k = some v) ∧
    (∀ (fu : Nat) (a b : Fields) (k : String) (v : Node),
      lookupF a k = none →
      lookupF b k = some v →
      isMergeMod v = true →
      ∀ r, deep_merge fu a b ≠ .ok r) ∧
    (∀ (fu : Nat) (a b r : Fields) (k : String),
      deep_merge fu a b = .ok r →
      lookupF b k = none →
      lookupF r k = lookupF a k) :=
  ⟨fun fu a b r k v hm ha hb hv hnd => deep_merge_new_key fu b a r k v hm ha hb hv hnd,
   fun fu a b k v ha hb hv => deep_merge_new_mod_fails fu b a k v ha hb hv,
   fun fu a b r k hm hb => deep_merge_absent fu b a r k hm hb⟩

/-- Witness for C8 (amended): an overlay-only CallSpec key is copied
verbatim; an overlay-only ExtendSpec key makes the merge fail; a
base-only key survives a merge that touches other keys. -/
theorem deep_merge_overlay_copy_witness :
    lookupF [("x", Node.pint 1), ("k", Node.callSpec ("m.f") [] [] false)] ("k") =
      some (.callSpec ("m.f") [] [] false) ∧
    (∀ r, deep_merge 2 [("x", .pint 1)] [("k", .extendSpec [.pint 2])] ≠ .ok r) ∧
    lookupF [("x", Node.pint 7), ("y", Node.pint 2)] ("x") =
      lookupF [("x", Node.pint 7)] ("x") :=
  ⟨deep_merge_overlay_copy_semantics.1 2
      [("x", .pint 1)] [("k", .callSpec ("m.f") [] [] false)]
      [("x", .pint 1), ("k", .callSpec ("m.f") [] [] false)]
      ("k") (.callSpec ("m.f") [] [] false) rfl rfl rfl rfl (by decide),
   deep_merge_overlay_copy_semantics.2.1 2
      [("x", .pint 1)] [("k", .extendSpec [.pint 2])]
      ("k") (.extendSpec [.pint 2]) rfl rfl rfl,
   deep_merge_overlay_copy_semantics.2.2 2
      [("x", .pint 7)] [("y", .pint 2)] [("x", .pint 7), ("y", .pint 2)]
      ("x") rfl rfl⟩

/-! ## Claim C1 -/

/-- C1 (failing behaviour): `_apply_call`'s retry wraps the positional
arguments twice — `fn([args], **kwargs)` passes a list *containing* the
argument list — so `!@collections.Counter [1,1,1,4,5]` does not resolve
to the Counter of `[1,1,1,4,5]`: the first invocation fails with the
arity TypeError, the retry `Counter([[1,1,1,4,5]])` fails hashing the
inner list, and that second failure (not the original) propagates (first
and third conjuncts, at `_apply_call` level and end-to-end through the
Resolver).  The second conjunct shows the invocation the claim (and the
repository's own `tests/test_objects.py`) expects — one argument that
*is* the argument sequence — would succeed with the right counts.  The
single-positional-argument path `!@pathlib.Path /tmp/test` needs no retry
and does round-trip (fourth and fifth conjuncts). -/
theorem apply_call_single_wrap_retry_bug :
    apply_call (.pyfun .counter) counterArgs [] =
      .error (.typeError ("unhashable type: list")) ∧
    callNode (.pyfun .counter) [.plist counterArgs] [] =
      .ok (.counterV [(.pint 1, 3), (.pint 4, 1), (.pint 5, 1)]) ∧
    resolve 3 envObjects []
      (.pdict [("counter", .callSpec ("collections.Counter") counterArgs [] false)]) "" =
      .error (.typeError ("unhashable type: list")) ∧
    (∃ c, resolve 3 envObjects []
      (.pdict [("path", .callSpec ("pathlib.Path") [.pstr ("/tmp/test")] [] false)]) "" =
      .ok (.pdict [("path", .pathV ("/tmp/test"))], c)) ∧
    pyStr (.pathV ("/tmp/test")) = "/tmp/test" :=
  ⟨rfl, rfl, rfl, ⟨_, rfl⟩, rfl⟩

/-! ## Claim C4 -/

/-- Counterexample to C4 as stated: in permissive mode with the non-empty
include set `["only.yml"]`, the path `"other.yml"` matches no pattern in
the set, so under the claim's denylist reading it must be permitted — but
`check_include` denies it (the include set is an allowlist in permissive
mode). -/
theorem security_permissive_denylist_cex :
    check_include { permissivePolicy with allowed_include_paths := [("only.yml")] }
      ("other.yml") = .error (.permission ("include") ("other.yml")) := rfl

/-- C4 (amended): with `restrictive = false` the three categories behave
differently.  `check_import` is the only denylist: it permits unless
the import set is non-empty and the module matches a pattern in it.
`check_env_var` permits unless the env set is non-empty and the name is
not a member (exact names, no patterns).  `check_include` permits unless
the include set is non-empty and the path matches no pattern.  Each
conjunct characterises the check exactly. -/
theorem security_permissive_mode_semantics :
    (∀ (p : SecurityPolicy) (m : String), p.restrictive = false →
      (check_import p m = .ok () ↔
        (p.allowed_imports.isEmpty = true ∨
         matches_patterns m p.allowed_imports = false))) ∧
    (∀ (p : SecurityPolicy) (n : String), p.restrictive = false →
      (check_env_var p n = .ok () ↔
        (p.allowed_env_vars.isEmpty = true ∨ n ∈ p.allowed_env_vars))) ∧
    (∀ (p : SecurityPolicy) (pa : String), p.restrictive = false →
      (check_include p pa = .ok () ↔
        (p.allowed_include_paths.isEmpty = true ∨
         matches_patterns pa p.allowed_include_paths = true))) := by
  refine ⟨?_, ?_, ?_⟩
  · intro p m hp
    by_cases h1 : p.allowed_imports.isEmpty <;>
      by_cases h2 : matches_patterns m p.allowed_imports <;>
        simp [check_import, hp, h1, h2]
  · intro p n hp
    by_cases h1 : p.allowed_env_vars.isEmpty <;>
      by_cases h2 : n ∈ p.allowed_env_vars <;>
        simp [check_env_var, hp, h1, h2]
  · intro p pa hp
    by_cases h1 : p.allowed_include_paths.isEmpty <;>
      by_cases h2 : matches_patterns pa p.allowed_include_paths <;>
        simp [check_include, hp, h1, h2]

/-- Witness for C4 (amended): a permissive policy blocking `pathlib.*`
still permits `collections.Counter` (denylist for imports), a permissive
include allowlist permits a matching path, and a permissive env set
permits a member name. -/
theorem security_permissive_mode_witness :
    check_import { permissivePolicy with allowed_imports := [("pathlib.*")] }
      ("collections.Counter") = .ok () ∧
    check_include { permissivePolicy with allowed_include_paths := [("/cfg/*")] }
      ("/cfg/dev.yml") = .ok () ∧
    check_env_var { permissivePolicy with allowed_env_vars := [("HOME")] }
      ("HOME") = .ok () :=
  ⟨(security_permissive_mode_semantics.1
      { permissivePolicy with allowed_imports := [("pathlib.*")] }
      ("collections.Counter") rfl).mpr (Or.inr (by decide)),
   (security_permissive_mode_semantics.2.2
      { permissivePolicy with allowed_include_paths := [("/cfg/*")] }
      ("/cfg/dev.yml") rfl).mpr (Or.inr (by decide)),
   (security_permissive_mode_semantics.2.1
      { permissivePolicy with allowed_env_vars := [("HOME")] }
      ("HOME") rfl).mpr (Or.inr (by decide))⟩

/-! ## Claim C5 -/

/-- C5 (failing behaviour): the tag constructor for `!env`
(`construct_env`, `src/pyamlo/tags.py` lines 81-103) reads the
environment without consulting any security policy — it does not even
receive one — so parsing `db_user: !env TEST_DENIED` under the default
restrictive policy returns the environment value instead of raising the
permission error the claim (and `tests/test_security_policy.py::
test_env_var_denied`) requires.  The first conjunct evaluates the
constructor at that failing input; the second shows the policy gate the
loader was supposed to consult would indeed have denied the read. -/
theorem construct_env_no_policy_gate :
    construct_env [("TEST_DENIED", "secret")] (.scalar ("TEST_DENIED")) =
      .ok (.pstr ("secret")) ∧
    check_env_var restrictivePolicy ("TEST_DENIED") =
      .error (.permission ("env") ("TEST_DENIED")) := ⟨rfl, rfl⟩

/-! ## Claim C6 -/

set_option maxHeartbeats 2000000 in
/-- `a / b` over integer context entries evaluates to the exact quotient
as a float, for any non-zero divisor. -/
theorem evaluate_div_int (x y : Int) (hy : y ≠ 0) :
    evaluate (rget noAttrs [("a", .pint x), ("b", .pint y)]) ("a / b") =
      .ok (.pfloat ((x : Rat) / (y : Rat))) := by
  have hy2 : ¬((y : Rat) = 0) := by exact_mod_cast hy
  simp [evaluate, get_safe_expr_with_ns, extract_variables, stripQuoted, chars,
    varScan, is_math_operation, has_math_operators, has_comparison_operators,
    has_logical_operators, hasWord, hasWordFrom, isPrefixL, containsSub,
    mathOpChars, isVarTokChar, isWordChar, dropTrailDots, pythonKeywords,
    rget, lookupF, validate_variable, should_validate_as_numeric, hasDot,
    isNumericNode, get_safe, updateF, evalPyExpr, pyTokenize, pev, levelOps,
    applyBin, asRatNode, asIntNode, bind, Except.bind, pure, Except.pure,
    List.foldlM, hy2, ofChars]

/-- The `${a / b}` interpolation through the Resolver, divisor non-zero. -/
theorem resolve_div_int (x y : Int) (hy : y ≠ 0) :
    resolve 1 envPlain [("a", .pint x), ("b", .pint y)] (.pstr ("${a / b}")) ("p") =
      .ok (.pfloat ((x : Rat) / (y : Rat)), [("a", .pint x), ("b", .pint y)]) := by
  have h := evaluate_div_int x y hy
  simp only [resolve, resolve_str]
  rw [show fullmatchVar ("${a / b}") = some ("a / b") from rfl]
  simp [show is_expression ("a / b") = true from rfl, check_expression, envPlain,
    permissivePolicy, SecurityPolicy.default, h, bind, Except.bind]

/-- C6: interpolated integer expressions follow standard precedence and
signed two's-complement semantics through the Resolver: with `a=12, b=5`
the six bitwise forms give 4, 13, 9, -13, 24, 6; with `a=8,b=4,c=2` the
`&` in `${a | b & c}` binds first giving 8; `${2 + 3 * 4}` is 14; `/` on
two integer operands produces a float — for every non-zero divisor, the
exact quotient (penultimate conjunct) — and `${10 / 0}` raises the
expression error that names the original expression text and signals
division by zero. -/
theorem expression_bitwise_precedence_semantics :
    resolve 1 envPlain [("a", .pint 12), ("b", .pint 5)] (.pstr ("${a & b}")) ("p") =
      .ok (.pint 4, [("a", .pint 12), ("b", .pint 5)]) ∧
    resolve 1 envPlain [("a", .pint 12), ("b", .pint 5)] (.pstr ("${a | b}")) ("p") =
      .ok (.pint 13, [("a", .pint 12), ("b", .pint 5)]) ∧
    resolve 1 envPlain [("a", .pint 12), ("b", .pint 5)] (.pstr ("${a ^ b}")) ("p") =
      .ok (.pint 9, [("a", .pint 12), ("b", .pint 5)]) ∧
    resolve 1 envPlain [("a", .pint 12), ("b", .pint 5)] (.pstr ("${~a}")) ("p") =
      .ok (.pint (-13), [("a", .pint 12), ("b", .pint 5)]) ∧
    resolve 1 envPlain [("a", .pint 12), ("b", .pint 5)] (.pstr ("${a << 1}")) ("p") =
      .ok (.pint 24, [("a", .pint 12), ("b", .pint 5)]) ∧
    resolve 1 envPlain [("a", .pint 12), ("b", .pint 5)] (.pstr ("${a >> 1}")) ("p") =
      .ok (.pint 6, [("a", .pint 12), ("b", .pint 5)]) ∧
    resolve 1 envPlain [("a", .pint 8), ("b", .pint 4), ("c", .pint 2)]
      (.pstr ("${a | b & c}")) ("p") =
      .ok (.pint 8, [("a", .pint 8), ("b", .pint 4), ("c", .pint 2)]) ∧
    resolve 1 envPlain [] (.pstr ("${2 + 3 * 4}")) ("p") = .ok (.pint 14, []) ∧
    (∀ (x y : Int), y ≠ 0 →
      resolve 1 envPlain [("a", .pint x), ("b", .pint y)] (.pstr ("${a / b}")) ("p") =
        .ok (.pfloat ((x : Rat) / (y : Rat)), [("a", .pint x), ("b", .pint y)])) ∧
    resolve 1 envPlain [] (.pstr ("${10 / 0}")) ("p") =
      .error (.divisionByZero ("10 / 0")) :=
  ⟨rfl, rfl, rfl, rfl, rfl, rfl, rfl, rfl,
   fun x y hy => resolve_div_int x y hy, rfl⟩

/-- Witness for C6: the division conjunct applied at `a=12, b=5` gives
the float `12/5`. -/
theorem expression_bitwise_precedence_witness :
    resolve 1 envPlain [("a", .pint 12), ("b", .pint 5)] (.pstr ("${a / b}")) ("p") =
      .ok (.pfloat ((12 : Rat) / (5 : Rat)), [("a", .pint 12), ("b", .pint 5)]) :=
  expression_bitwise_precedence_semantics.2.2.2.2.2.2.2.2.1 12 5 (by decide)

/-! ## Claim C7 -/

/-- Unfolding equation for the IncludeFromSpec case of `resolve`. -/
theorem resolve_includeFrom_eq (f : Nat) (env : REnv) (ctx : Fields) (p : String)
    (bp : Option String) (pa : String) :
    resolve (f + 1) env ctx (.includeFromSpec p bp) pa =
      (include_load f env ctx p bp) >>= fun merged =>
      (resolve f env ctx (.pdict merged) "") >>= fun rp =>
      (if (pySplitDot pa).getLastD "" = "_" then .ok (rp.1, rp.2)
       else
         match rp.1 with
         | .pdict es =>
           (match lookupF es ((pySplitDot pa).getLastD "") with
            | some v => .ok (v, rp.2)
            | none => .error (.includeKeyMissing p ((pySplitDot pa).getLastD "")))
         | _ => .error (.attributeError ("pop"))) := rfl

/-- C7: resolving an IncludeFromSpec loads, include-expands and resolves
the target file, then pops exactly the final segment of the node's own
context path from the resolved mapping (first conjunct); a missing key
raises the error naming the include path and the key (second conjunct);
the sentinel path segment `_` skips extraction and returns the whole
resolved mapping (third conjunct), which the surrounding dict handler
then merges key-by-key into the parent result, updating the context for
every merged key and adding no literal `_` entry.  The last three
conjuncts run the full pipeline on a concrete file system: extraction of
`svc`, the missing-key failure, and the `_` merge whose result holds
`start, svc, extra, end` in order with `svc`/`extra` recorded in the
context and no `_` key. -/
theorem include_from_extraction_semantics :
    (∀ (f : Nat) (env : REnv) (ctx : Fields) (p : String) (bp : Option String)
       (pa : String) (merged es ctx1 : Fields) (v : Node),
      include_load f env ctx p bp = .ok merged →
      resolve f env ctx (.pdict merged) "" = .ok (.pdict es, ctx1) →
      (pySplitDot pa).getLastD "" ≠ "_" →
      lookupF es ((pySplitDot pa).getLastD "") = some v →
      resolve (f + 1) env ctx (.includeFromSpec p bp) pa = .ok (v, ctx1)) ∧
    (∀ (f : Nat) (env : REnv) (ctx : Fields) (p : String) (bp : Option String)
       (pa : String) (merged es ctx1 : Fields),
      include_load f env ctx p bp = .ok merged →
      resolve f env ctx (.pdict merged) "" = .ok (.pdict es, ctx1) →
      (pySplitDot pa).getLastD "" ≠ "_" →
      lookupF es ((pySplitDot pa).getLastD "") = none →
      resolve (f + 1) env ctx (.includeFromSpec p bp) pa =
        .error (.includeKeyMissing p ((pySplitDot pa).getLastD ""))) ∧
    (∀ (f : Nat) (env : REnv) (ctx : Fields) (p : String) (bp : Option String)
       (pa : String) (merged : Fields) (resolved : Node) (ctx1 : Fields),
      include_load f env ctx p bp = .ok merged →
      resolve f env ctx (.pdict merged) "" = .ok (resolved, ctx1) →
      (pySplitDot pa).getLastD "" = "_" →
      resolve (f + 1) env ctx (.includeFromSpec p bp) pa = .ok (resolved, ctx1)) ∧
    resolve 6 envInc []
      (.pdict [("svc", .includeFromSpec ("/app/inc.yaml") none)]) "" =
      .ok (.pdict [("svc", .pdict [("port", .pint 80)])],
        [("", .pdict [("svc", .pdict [("port", .pint 80)])]),
         ("svc", .pdict [("port", .pint 80)]),
         ("svc.port", .pint 80),
         ("extra", .pint 1)]) ∧
    resolve 6 envInc []
      (.pdict [("missing", .includeFromSpec ("/app/inc.yaml") none)]) "" =
      .error (.includeKeyMissing ("/app/inc.yaml") ("missing")) ∧
    resolve 6 envInc []
      (.pdict [("start", .pint 0), ("_", .includeFromSpec ("/app/inc.yaml") none),
               ("end", .pint 9)]) "" =
      .ok (.pdict [("start", .pint 0), ("svc", .pdict [("port", .pint 80)]),
                   ("extra", .pint 1), ("end", .pint 9)],
        [("", .pdict [("start", .pint 0), ("svc", .pdict [("port", .pint 80)]),
                      ("extra", .pint 1), ("end", .pint 9)]),
         ("start", .pint 0),
         ("svc", .pdict [("port", .pint 80)]),
         ("svc.port", .pint 80),
         ("extra", .pint 1),
         ("end", .pint 9)]) := by
  refine ⟨?_, ?_, ?_, rfl, rfl, rfl⟩
  · intro f env ctx p bp pa merged es ctx1 v hload hres ht hlook
    rw [List.getLastD_eq_getLast?] at ht hlook
    rw [resolve_includeFrom_eq, hload]
    simp [hres, ht, hlook, bind, Except.bind]
  · intro f env ctx p bp pa merged es ctx1 hload hres ht hlook
    rw [List.getLastD_eq_getLast?] at ht hlook
    rw [resolve_includeFrom_eq, hload]
    simp [hres, ht, hlook, bind, Except.bind]
  · intro f env ctx p bp pa merged resolved ctx1 hload hres ht
    rw [resolve_includeFrom_eq, hload]
    simp only [bind, Except.bind, hres]
    rw [if_pos ht]

/-- Witness for C7: the extraction conjunct applied to the concrete file
system — the node at context path `cfg.svc` extracts the included file's
`svc` key. -/
theorem include_from_extraction_witness :
    resolve 4 envInc [] (.includeFromSpec ("/app/inc.yaml") none) ("cfg.svc") =
      .ok (.pdict [("port", .pint 80)],
        [("", .pdict [("svc", .pdict [("port", .pint 80)]), ("extra", .pint 1)]),
         ("svc", .pdict [("port", .pint 80)]),
         ("svc.port", .pint 80),
         ("extra", .pint 1)]) :=
  include_from_extraction_semantics.1 3 envInc [] ("/app/inc.yaml") none ("cfg.svc")
    [("svc", .pdict [("port", .pint 80)]), ("extra", .pint 1)]
    [("svc", .pdict [("port", .pint 80)]), ("extra", .pint 1)]
    [("", .pdict [("svc", .pdict [("port", .pint 80)]), ("extra", .pint 1)]),
     ("svc", .pdict [("port", .pint 80)]),
     ("svc.port", .pint 80),
     ("extra", .pint 1)]
    (.pdict [("port", .pint 80)])
    rfl rfl (by decide) rfl

/-! ## Claim C9 -/

/-- Counterexample to C9 as stated: on a successful run with one config
file the process exits 0 but prints nothing at all to standard output —
the resolved mapping is never rendered (the `pprint` import in
`__main__.py` is unused) — and in the no-config-file case the usage
block with the example invocations goes to standard output, only the
one-line `Error:` message going to standard error. -/
theorem cli_main_print_cex :
    (cliMain (fun _ _ => .ok [("app", .pint 1)]) [("cfg.yaml")]).exitCode = 0 ∧
    (cliMain (fun _ _ => .ok [("app", .pint 1)]) [("cfg.yaml")]).stdoutLines = [] ∧
    (cliMain (fun _ _ => .ok [("app", .pint 1)]) []).stdoutLines = usageLines ∧
    (cliMain (fun _ _ => .ok [("app", .pint 1)]) []).stderrLines =
      [("Error: At least one config file must be provided")] :=
  ⟨rfl, rfl, rfl, rfl⟩

/-- C9 (amended): with no configuration file among the arguments, `main`
prints the one-line `Error:` message to standard error, the usage block
with example invocations to standard *output*, and exits 1.  With at
least one file and a successful load it exits 0, prints nothing, and
serialises the configuration as JSON exactly when `--cfg-output=<path>`
was given.  Any loading failure prints the one-line error to standard
error and exits 1. -/
theorem cli_main_behavior :
    (∀ (load : List String → List String → Except String Fields) (args : List String),
      (parse_args args).config_files = [] →
      cliMain load args =
        { exitCode := 1, stdoutLines := usageLines,
          stderrLines := [("Error: At least one config file must be provided")],
          jsonWritten := none }) ∧
    (∀ (load : List String → List String → Except String Fields) (args : List String)
       (cfg : Fields),
      (parse_args args).config_files ≠ [] →
      load (parse_args args).config_files (parse_args args).override_args = .ok cfg →
      cliMain load args =
        { exitCode := 0, stdoutLines := [], stderrLines := [],
          jsonWritten := (parse_args args).cfg_output_file.map (fun p => (p, cfg)) }) ∧
    (∀ (load : List String → List String → Except String Fields) (args : List String)
       (msg : String),
      (parse_args args).config_files ≠ [] →
      load (parse_args args).config_files (parse_args args).override_args = .error msg →
      cliMain load args =
        { exitCode := 1, stdoutLines := [],
          stderrLines := [("Error loading configuration: " ++ msg)],
          jsonWritten := none }) := by
  refine ⟨?_, ?_, ?_⟩
  · intro load args h
    simp [cliMain, h]
  · intro load args cfg h hload
    simp [cliMain, List.isEmpty_iff, h, hload]
  · intro load args msg h hload
    simp [cliMain, List.isEmpty_iff, h, hload]

/-- Witness for C9 (amended): the three behaviours at concrete argument
lists — no files; one file with `--cfg-output=` and a successful load;
one file with a failing load. -/
theorem cli_main_behavior_witness :
    cliMain (fun _ _ => .ok [("app", .pint 1)]) [("pyamlo.x=1")] =
      { exitCode := 1, stdoutLines := usageLines,
        stderrLines := [("Error: At least one config file must be provided")],
        jsonWritten := none } ∧
    cliMain (fun _ _ => .ok [("app", .pint 1)])
        [("cfg.yaml"), ("--cfg-output=/tmp/out.json")] =
      { exitCode := 0, stdoutLines := [], stderrLines := [],
        jsonWritten := some (("/tmp/out.json"), [("app", .pint 1)]) } ∧
    cliMain (fun _ _ => .error ("boom")) [("cfg.yaml")] =
      { exitCode := 1, stdoutLines := [],
        stderrLines := [("Error loading configuration: boom")],
        jsonWritten := none } :=
  ⟨cli_main_behavior.1 (fun _ _ => .ok [("app", .pint 1)]) [("pyamlo.x=1")] rfl,
   cli_main_behavior.2.1 (fun _ _ => .ok [("app", .pint 1)])
     [("cfg.yaml"), ("--cfg-output=/tmp/out.json")] [("app", .pint 1)]
     (by decide) rfl,
   cli_main_behavior.2.2 (fun _ _ => .error ("boom")) [("cfg.yaml")] ("boom")
     (by decide) rfl⟩

/-! ## Claim C10 -/

/-- A monadic fold errors at the first element whose step fails, when all
earlier steps succeed. -/
theorem foldlM_first_err {α β : Type} (g : β → α → Except Err β) (l1 : List α)
    (v : α) (l2 : List α) (e : Err)
    (h1 : ∀ acc w, w ∈ l1 → ∃ acc', g acc w = .ok acc')
    (h2 : ∀ acc, g acc v = .error e) :
    ∀ acc, (l1 ++ v :: l2).foldlM g acc = .error e := by
  induction l1 with
  | nil => intro acc; simp [List.foldlM, h2 acc, bind, Except.bind]
  | cons hd t ih =>
    intro acc
    obtain ⟨acc2, hacc⟩ := h1 acc hd (by simp)
    simp only [List.cons_append, List.foldlM, hacc, bind, Except.bind]
    exact ih (fun a w hw => h1 a w (by simp [hw])) acc2

/-- C10: for an expression classified as a math operation (a math/bitwise
operator and neither comparison operators nor logical keywords), every
extracted variable that resolves to a value and is not the prefix of a
longer dotted variable in the same expression must be numeric: if such a
variable is the first to resolve to a non-numeric value (all variables
extracted before it resolving and validating), evaluation fails with the
ExpressionError naming that variable — before the expression text is
ever evaluated.  The last two conjuncts give the string-operand
instance: `a + b` over strings is rejected naming `a`, although the
modelled host `eval` would happily concatenate them. -/
theorem expression_math_nonnumeric_rejection :
    (∀ (getv : String → Except Err Node) (expr : String) (l1 l2 : List String)
       (v : String) (val : Node),
      is_math_operation expr = true →
      extract_variables expr = l1 ++ v :: l2 →
      (∀ w ∈ l1, ∃ u, getv w = .ok u ∧
        validate_variable w u (extract_variables expr) = .ok ()) →
      getv v = .ok val →
      should_validate_as_numeric v (extract_variables expr) = true →
      isNumericNode val = false →
      evaluate getv expr = .error (.nonNumeric v)) ∧
    evaluate sgetFoo ("a + b") = .error (.nonNumeric ("a")) ∧
    evalPyExpr [("a", .pstr ("foo")), ("b", .pstr ("bar"))] ("a + b") =
      .ok (.pstr ("foobar")) := by
  refine ⟨?_, rfl, rfl⟩
  intro getv expr l1 l2 v val hmath hvars h1 hv hsv hnn
  have hval : validate_variable v val (extract_variables expr) =
      .error (.nonNumeric v) := by
    simp [validate_variable, hsv, hnn]
  have hfold : get_safe_expr_with_ns getv expr = .error (.nonNumeric v) := by
    unfold get_safe_expr_with_ns
    rw [hmath]
    conv_lhs => rw [hvars]
    refine foldlM_first_err _ l1 v l2 (.nonNumeric v) ?_ ?_ _
    · intro acc w hw
      obtain ⟨u, hu, hok⟩ := h1 w hw
      rw [hvars] at hok
      refine ⟨((get_safe acc.1 w).2, updateF acc.2 (get_safe acc.1 w).1 u), ?_⟩
      simp [hu, hok, bind, Except.bind]
    · intro acc
      rw [hvars] at hval
      simp [hv, hval, bind, Except.bind]
  simp [evaluate, hfold, bind, Except.bind]

/-- Witness for C10: applied to `a + b` with both variables bound to
strings — the first variable `a` is named in the error. -/
theorem expression_math_nonnumeric_witness :
    evaluate sgetFoo ("a + b") = .error (.nonNumeric ("a")) :=
  expression_math_nonnumeric_rejection.1 sgetFoo ("a + b") [] [("b")]
    ("a") (.pstr ("foo")) rfl rfl
    (fun w hw => absurd hw (List.not_mem_nil w)) rfl rfl rfl
